import Mathlib

/-!
Verification of the crm-inbound-orchestrator skill
(`src/skills/crm-inbound-orchestrator/scripts/process-inbound.ts`).

A shallow embedding of the script's pure logic and of its orchestration
loop.  External effects are modelled explicitly:

* JavaScript strings are Lean `String`s (operated on through `String.data`,
  a `List Char`); JS truthiness of an optional string (`s || t`) is modelled
  by `jsOr` / `strT` (`undefined` ⇒ `none`, the empty string is falsy).
* JS numbers appearing in classifier confidences and receipt amounts are
  modelled as exact rationals (`ℚ`); the only place where IEEE-double
  behaviour is observable to the script is the `Number.isFinite` guard in
  `parseReceiptInfo`, which is modelled exactly by the double-overflow
  threshold `2^1024 - 2^970` (`jsFiniteQ`).
* `Date.parse` is an ECMAScript built-in, modelled by an abstract parameter
  `parse : String → Option Int` (`none` stands for `NaN`); likewise
  `new Date(ms).toISOString()` is a parameter `tsOfEpoch : Int → String`,
  `new Date().toISOString()` is a single `now : String` parameter, and
  `randomUUID()` is a `uuid : String` parameter.
* The Supabase persistence substrate is consumed only through
  upsert-by-unique-key / patch-by-filter calls; it is modelled by a `World`
  record of those operations over an abstract state `σ`.  `dbWorld`
  instantiates it with an honest keyed row store (`Store`), other
  instantiations model degenerate upsert responses (rows coming back
  without a usable `id`).
* The Slack `fetch` call of `maybePostSlack` is modelled by a parameter
  `fetchR : Except String SlackHttpResp`: `.error e` is a rejected
  fetch/json promise (a thrown transport exception), `.ok resp` is a
  delivered HTTP response with its `ok` status flag and decoded body.
-/

namespace Crm

/-! ## JS string helpers -/

/-- `toLowerCase` (kernel-computable form of `String.toLower`). -/
def strLower (s : String) : String :=
  String.mk (s.data.map Char.toLower)

/-- `trim` (kernel-computable form of `String.trim`). -/
def strTrim (s : String) : String :=
  String.mk ((((s.data.dropWhile Char.isWhitespace).reverse).dropWhile
    Char.isWhitespace).reverse)

/-- Truthiness of an optional JS string: `undefined` and `""` are falsy. -/
def strT (o : Option String) : Bool :=
  match o with
  | some s => !s.isEmpty
  | none => false

/-- `a || b` for an optional string `a` and a string `b`. -/
def jsOr (a : Option String) (b : String) : String :=
  match a with
  | some s => if s.isEmpty then b else s
  | none => b

/-- `a || b` for two optional strings. -/
def jsOrOpt (a b : Option String) : Option String :=
  match a with
  | some s => if s.isEmpty then b else some s
  | none => b

/-- `clean` from the script: trim, and map blank to `undefined`. -/
def cleanOpt (v : Option String) : Option String :=
  match v with
  | some s => let t := strTrim s; if t.isEmpty then none else some t
  | none => none

/-- Does `pat` occur at the head of `l`? -/
def leadsWith : List Char → List Char → Bool
  | [], _ => true
  | _ :: _, [] => false
  | a :: as, b :: bs => a == b && leadsWith as bs

/-- Does `pat` occur anywhere in `l`?  (`String.prototype.includes`.) -/
def infixIn (pat : List Char) : List Char → Bool
  | [] => leadsWith pat []
  | b :: bs => leadsWith pat (b :: bs) || infixIn pat bs

/-- `text.includes(sub)`. -/
def containsSub (text sub : String) : Bool :=
  infixIn sub.data text.data

/-- First-occurrence-preserving deduplication, with an explicit seen-set
(`Array.from(new Set(xs))` / `Set` insertion semantics). -/
def dedupGo (seen : List String) : List String → List String
  | [] => []
  | x :: xs => if seen.contains x then dedupGo seen xs else x :: dedupGo (x :: seen) xs

def dedupKeepFirst (l : List String) : List String := dedupGo [] l

/-! ## Sender parsing (`extractEmailAddress`, `extractEmailDomain`,
`extractDisplayName`) -/

/-- Chars up to (excluding) the first `'>'`; `none` if there is no `'>'`.
Used for the regex `/<([^>]+)>/`. -/
def takeUntilGt : List Char → Option (List Char)
  | [] => none
  | c :: cs => if c == '>' then some [] else (takeUntilGt cs).map (c :: ·)

/-- Leftmost match of `/<([^>]+)>/`, returning the (non-empty) group. -/
def bracketContent : List Char → Option (List Char)
  | [] => none
  | c :: cs =>
    if c == '<' then
      match takeUntilGt cs with
      | some content => if content.isEmpty then bracketContent cs else some content
      | none => bracketContent cs
    else bracketContent cs

/-- Character class `[A-Z0-9._%+-]` with the `i` flag. -/
def isLocalCh (c : Char) : Bool :=
  c.isAlpha || c.isDigit || c == '.' || c == '_' || c == '%' || c == '+' || c == '-'

/-- Character class `[A-Z0-9.-]` with the `i` flag. -/
def isDomCh (c : Char) : Bool :=
  c.isAlpha || c.isDigit || c == '.' || c == '-'

/-- Backtracking tail of the domain part of `/[A-Z0-9.-]+\.[A-Z]{2,}/i`:
given the maximal run `dom` of domain characters, find the largest split
point `k ≥ 1` with `dom[k] = '.'` followed by at least two letters, and
return the matched domain (letters taken greedily). -/
def domTail (dom : List Char) : Option (List Char) :=
  ((List.range dom.length).reverse).findSome? (fun k =>
    if 1 ≤ k && dom.getD k 'x' == '.' then
      let letters := ((dom.drop (k + 1)).takeWhile Char.isAlpha)
      if 2 ≤ letters.length then some (dom.take k ++ '.' :: letters) else none
    else none)

/-- Try to match `/[A-Z0-9._%+-]+@[A-Z0-9.-]+\.[A-Z]{2,}/i` anchored at the
current position. -/
def tryEmailAt (cs : List Char) : Option (List Char) :=
  let loc := cs.takeWhile isLocalCh
  let rest := cs.dropWhile isLocalCh
  if loc.isEmpty then none
  else
    match rest with
    | '@' :: r2 =>
      match domTail (r2.takeWhile isDomCh) with
      | some dm => some (loc ++ '@' :: dm)
      | none => none
    | _ => none

/-- Leftmost match of the bare-email regex. -/
def findBareEmail : List Char → Option (List Char)
  | [] => none
  | c :: cs =>
    match tryEmailAt (c :: cs) with
    | some r => some r
    | none => findBareEmail cs

/-- `extractEmailAddress`: the bracketed form wins, else a bare address;
results are trimmed (bracket case) and lower-cased. -/
def extractEmailAddress (rawFrom : Option String) : Option String :=
  match rawFrom with
  | none => none
  | some rf =>
    match bracketContent rf.data with
    | some content => some (strLower (strTrim (String.mk content)))
    | none => (findBareEmail rf.data).map (fun l => strLower (String.mk l))

/-- `extractEmailDomain`: part of the address after the first `@`
(trimmed, lower-cased), or `none` when absent/blank. -/
def extractEmailDomain (email : Option String) : Option String :=
  match email with
  | none => none
  | some e =>
    if e.isEmpty || !(e.data.any (fun c => c == '@')) then none
    else
      let dom := ((e.data.dropWhile (fun c => c != '@')).drop 1).takeWhile (fun c => c != '@')
      let d := strLower (strTrim (String.mk dom))
      if d.isEmpty then none else some d

/-- `senderEmail?.split("@")[0]?.trim().toLowerCase() || ""`. -/
def senderLocalOf (senderEmail : Option String) : String :=
  match senderEmail with
  | none => ""
  | some e => strLower (strTrim (String.mk (e.data.takeWhile (fun c => c != '@'))))

/-- Drop chars up to and including the first `'>'`; `none` if no `'>'`. -/
def cutBracketGo : List Char → Option (List Char)
  | [] => none
  | c :: cs => if c == '>' then some cs else cutBracketGo cs

/-- Match `<[^>]+>` anchored right after a seen `'<'`: requires a non-empty
run of non-`'>'` chars closed by `'>'`, returning the suffix after it. -/
def cutBracket : List Char → Option (List Char)
  | [] => none
  | c :: cs => if c == '>' then none else cutBracketGo cs

/-- `rawFrom.replace(/<[^>]+>/g, "")`, fuel-based: each `cutBracket` hit
strictly shortens the list (see `cutBracket_length`), so fuel equal to the
list length never runs out. -/
def stripBracketsGo : Nat → List Char → List Char
  | 0, cs => cs
  | _ + 1, [] => []
  | fuel + 1, c :: cs =>
    if c == '<' then
      match cutBracket cs with
      | some rest2 => stripBracketsGo fuel rest2
      | none => c :: stripBracketsGo fuel cs
    else c :: stripBracketsGo fuel cs

def stripBrackets (cs : List Char) : List Char :=
  stripBracketsGo cs.length cs

/-- `extractDisplayName`: remove bracket groups and double quotes, trim,
blank ⇒ `undefined`. -/
def extractDisplayName (rawFrom : Option String) : Option String :=
  match rawFrom with
  | none => none
  | some rf =>
    let cleaned := strTrim (String.mk ((stripBrackets rf.data).filter (fun c => c != '"')))
    if cleaned.isEmpty then none else some cleaned

/-! ## Classifier (`classifyInbound`) -/

inductive Classification where
  | receipt
  | sales
  | support
  | ignore
deriving DecidableEq, Repr

structure PollMessage where
  account_email : String
  message_id : String
  thread_id : Option String := none
  subject : Option String := none
  /-- the `from` field of the message (`from` is a Lean keyword). -/
  from_ : Option String := none
  snippet : Option String := none
  received_at : Option String := none
  internal_ts : Option Int := none
  source_key : String
  /-- opaque stand-in for the raw JSON payload (`raw`). -/
  raw : Option String := none
deriving DecidableEq, Repr

structure ClassificationResult where
  label : Classification
  confidence : ℚ
  reasons : List String
deriving DecidableEq, Repr

/-- Lower-cased `` `${subject ?? ""} ${snippet ?? ""} ${from ?? ""}` ``. -/
def msgText (m : PollMessage) : String :=
  strLower ((m.subject.getD "") ++ " " ++ (m.snippet.getD "") ++ " " ++ (m.from_.getD ""))

/-- `signals.some(s => text.includes(s))`. -/
def includesAny (text : String) (signals : List String) : Bool :=
  signals.any (fun s => containsSub text s)

def directInquirySignals : List String :=
  ["i'm interested", "i am interested", "we are interested", "sponsorship inquiry",
   "consulting", "consultation", "advisor", "advisory", "fractional", "retainer",
   "can we", "could we", "book a call", "request a quote", "proposal", "pricing",
   "need help", "looking for"]

def automatedSenderSignals : List String :=
  ["no-reply", "noreply", "do-not-reply", "notifications", "digest", "newsletter",
   "jobalerts"]

def automatedTextSignals : List String :=
  ["job alert", "jobs you may be interested", "recommended jobs", "linkedin jobs",
   "daily digest", "weekly digest", "unsubscribe", "manage preferences"]

def hiringSignals : List String :=
  ["hiring", "job opening", "apply now", "application", "recruiter",
   "career opportunity", "open role", "resume"]

def vendorSystemDomains : List String :=
  ["linkedin.com", "indeed.com", "glassdoor.com", "ziprecruiter.com", "monster.com",
   "mail.linkedin.com", "mailchimp.com", "sendgrid.net", "stripe.com", "paypal.com",
   "quickbooks.com", "intuit.com"]

def jobNetworkDomains : List String :=
  ["linkedin.com", "indeed.com", "glassdoor.com", "ziprecruiter.com", "monster.com"]

def hasDirectInquiry (m : PollMessage) : Bool :=
  includesAny (msgText m) directInquirySignals

def looksAutomated (m : PollMessage) : Bool :=
  includesAny (senderLocalOf (extractEmailAddress m.from_)) automatedSenderSignals
    || includesAny (msgText m) automatedTextSignals
    || includesAny (msgText m) automatedSenderSignals

def looksHiring (m : PollMessage) : Bool :=
  includesAny (msgText m) hiringSignals

def senderDomainOf (m : PollMessage) : Option String :=
  extractEmailDomain (extractEmailAddress m.from_)

def fromJobNetwork (m : PollMessage) : Bool :=
  match senderDomainOf m with
  | some d => jobNetworkDomains.contains d
  | none => false

def fromVendorSystem (m : PollMessage) : Bool :=
  match senderDomainOf m with
  | some d => vendorSystemDomains.contains d
  | none => false

def likelyNonHumanSender (m : PollMessage) : Bool :=
  looksAutomated m || fromJobNetwork m || fromVendorSystem m

def receiptSignals : List String :=
  ["invoice", "receipt", "payment", "charged", "charge", "order #",
   "order confirmation", "billing", "subscription", "tax invoice"]

def salesSignals : List String :=
  ["sponsorship", "partnership", "proposal", "quote", "pricing", "demo",
   "interested", "book a call", "campaign", "collaboration"]

def supportSignals : List String :=
  ["support", "help", "issue", "error", "problem", "unable", "bug"]

def ignoreSignals : List String :=
  ["unsubscribe", "newsletter", "promo", "promotion", "digest", "marketing update"]

/-- `signals.reduce((count, s) => text.includes(s) ? count + 1 : count, 0)`. -/
def countSignals (text : String) (signals : List String) : Nat :=
  signals.foldl (fun c s => if containsSub text s then c + 1 else c) 0

def receiptScore (m : PollMessage) : Nat := countSignals (msgText m) receiptSignals
def salesScore (m : PollMessage) : Nat := countSignals (msgText m) salesSignals
def supportScore (m : PollMessage) : Nat := countSignals (msgText m) supportSignals
def ignoreScore (m : PollMessage) : Nat := countSignals (msgText m) ignoreSignals

/-- The two-stage classifier. -/
def classifyInbound (m : PollMessage) : ClassificationResult :=
  if (likelyNonHumanSender m || looksHiring m) && !hasDirectInquiry m then
    { label := .ignore, confidence := 0.94, reasons := ["non-business-automation-filter"] }
  else if 0 < receiptScore m ∧ salesScore m ≤ receiptScore m then
    { label := .receipt, confidence := min (0.65 + (receiptScore m : ℚ) * 0.08) 0.96,
      reasons := ["matched-receipt-signals"] }
  else if 0 < salesScore m then
    if !hasDirectInquiry m || likelyNonHumanSender m || looksHiring m then
      { label := .ignore, confidence := 0.9, reasons := ["sales-needs-human-direct-inquiry"] }
    else
      { label := .sales, confidence := min (0.62 + (salesScore m : ℚ) * 0.07) 0.95,
        reasons := ["matched-sales-signals"] }
  else if 0 < supportScore m then
    { label := .support, confidence := min (0.58 + (supportScore m : ℚ) * 0.08) 0.9,
      reasons := ["matched-support-signals"] }
  else if 0 < ignoreScore m then
    { label := .ignore, confidence := min (0.6 + (ignoreScore m : ℚ) * 0.08) 0.92,
      reasons := ["matched-ignore-signals"] }
  else
    { label := .ignore, confidence := 0.52, reasons := ["no-strong-signal"] }

/-! ## SOP cues (`pickSopCues`) -/

structure SopSection where
  heading : Option String := none
  items : Option (List String) := none
deriving DecidableEq, Repr

structure SopBlock where
  text : Option String := none
deriving DecidableEq, Repr

structure SopInner where
  hash : Option String := none
  sections : Option (List SopSection) := none
  blocks : Option (List SopBlock) := none
deriving DecidableEq, Repr

structure SopSnapshot where
  degraded : Option Bool := none
  source : Option String := none
  warnings : Option (List String) := none
  sop : Option SopInner := none
deriving DecidableEq, Repr

def sopSectionLines (s : SopSection) : List String :=
  (match s.heading with
   | some h => if (strTrim h).isEmpty then [] else [strTrim h]
   | none => []) ++
  ((s.items.getD []).filterMap (fun it => if (strTrim it).isEmpty then none else some (strTrim it)))

def sopLines (sop : Option SopSnapshot) : List String :=
  let sections := (sop.bind (·.sop)).bind (·.sections)
  let fromSections := (sections.getD []).flatMap sopSectionLines
  if fromSections.isEmpty then
    match (sop.bind (·.sop)).bind (·.blocks) with
    | some blocks =>
      blocks.filterMap (fun b =>
        match b.text with
        | some t => if (strTrim t).isEmpty then none else some (strTrim t)
        | none => none)
    | none => []
  else fromSections

def sopRelevant (line : String) : Bool :=
  let lower := strLower line
  containsSub lower "qualif" || containsSub lower "response" || containsSub lower "lead"
    || containsSub lower "sponsor" || containsSub lower "timeline" || containsSub lower "pricing"

/-- `pickSopCues`: relevant lines, deduplicated, capped at 6. -/
def pickSopCues (sop : Option SopSnapshot) : List String :=
  (dedupKeepFirst ((sopLines sop).filter sopRelevant)).take 6

/-! ## Draft composer (`firstNameFromDisplay`, `buildSalesDraft`) -/

/-- `display.replace(/[^A-Za-z\s-]/g, " ").trim()` then first whitespace
chunk, with `"there"` fallbacks. -/
def firstNameFromDisplay (display : Option String) : String :=
  match display with
  | none => "there"
  | some d =>
    let cleanDisplay :=
      strTrim (String.mk (d.data.map (fun c =>
        if c.isAlpha || c.isWhitespace || c == '-' then c else ' ')))
    if cleanDisplay.isEmpty then "there"
    else
      -- `cleanDisplay.split(/\s+/)[0]`: the trimmed string starts with a
      -- non-whitespace char, so the first chunk is its leading
      -- non-whitespace run.
      let w := String.mk (cleanDisplay.data.takeWhile (fun c => !c.isWhitespace))
      if w.isEmpty then "there" else w

def APPROVAL_HELP : String :=
  "Approve: /skill crm-inbound-orchestrator approve <draft_id>\n" ++
  "Revise: /skill crm-inbound-orchestrator revise <draft_id> <notes>\n" ++
  "Reject: /skill crm-inbound-orchestrator reject <draft_id> <reason>"

structure SalesDraftArgs where
  senderDisplayName : Option String := none
  senderEmail : Option String := none
  subject : Option String := none
  snippet : Option String := none
  sopCues : List String := []

structure DraftText where
  subject : String
  body : String
deriving DecidableEq, Repr

def buildSalesDraft (args : SalesDraftArgs) : DraftText :=
  let firstName := firstNameFromDisplay args.senderDisplayName
  let intentSnippet := jsOr (args.snippet.map strTrim) "Thanks for reaching out to Prompt Circle."
  let sopNote :=
    if args.sopCues.length > 0 then
      String.intercalate "\n" (args.sopCues.map (fun cue => "- " ++ cue))
    else "- Confirm fit and desired outcome\n- Provide next-step CTA"
  let subject :=
    match args.subject with
    | some s => if leadsWith "re:".data (strLower s).data then s else "Re: " ++ s
    | none => "Re: Prompt Circle inquiry"
  let body := String.intercalate "\n"
    ["Hi " ++ firstName ++ ",", "", "Thanks for your message.", intentSnippet, "",
     "To make this actionable, could you share:", "1) Your primary objective", "2) Timeline",
     "3) Budget range or decision criteria", "",
     "Once we have those details, I can send a concrete recommendation and next steps.", "",
     "Best,", "Prompt Circle", "", "[SOP cues used for this draft]", sopNote]
  { subject := subject, body := body }

/-! ## Financial-record parser (`parseReceiptInfo`)

The two regexes are modelled by explicit leftmost-match scanners:
`/([$€£])\s*([0-9][0-9,]*(?:\.[0-9]{2})?)/` by `symbolScan` and
`/\b(USD|EUR|GBP|NGN|CAD|AUD)\s*([0-9][0-9,]*(?:\.[0-9]{2})?)/i` by
`codeScan`.  `Number.parseFloat` on the matched (comma-stripped) numeral is
modelled exactly by `jsParseFloatQ`, and the `Number.isFinite` guard by the
IEEE-double overflow threshold `jsFiniteQ` (parseFloat of a decimal numeral
returns `Infinity` exactly when its value rounds to `2^1024`, i.e. when it
is at least `2^1024 - 2^970`). -/

/-- Match `[0-9][0-9,]*(?:\.[0-9]{2})?` anchored at the current position,
returning the matched numeral. -/
def scanNumber (cs : List Char) : Option (List Char) :=
  match cs with
  | [] => none
  | c :: rest =>
    if c.isDigit then
      let more := rest.takeWhile (fun d => d.isDigit || d == ',')
      let r2 := rest.dropWhile (fun d => d.isDigit || d == ',')
      match r2 with
      | '.' :: d1 :: d2 :: _ =>
        if d1.isDigit && d2.isDigit then some (c :: more ++ '.' :: d1 :: [d2])
        else some (c :: more)
      | _ => some (c :: more)
    else none

/-- Leftmost match of the currency-symbol regex: the symbol and the numeral
group. -/
def symbolScan : List Char → Option (Char × List Char)
  | [] => none
  | c :: rest =>
    if c == '$' || c == '€' || c == '£' then
      match scanNumber (rest.dropWhile Char.isWhitespace) with
      | some num => some (c, num)
      | none => symbolScan rest
    else symbolScan rest

def isWordCh (c : Char) : Bool := c.isAlpha || c.isDigit || c == '_'

def currencyCodes : List String := ["USD", "EUR", "GBP", "NGN", "CAD", "AUD"]

/-- Case-insensitive prefix test for a 3-letter code. -/
def codePrefixCI (code : String) (cs : List Char) : Bool :=
  leadsWith (strLower code).data (cs.map Char.toLower)

/-- Try the alternation `(USD|EUR|GBP|NGN|CAD|AUD)` at the current position
(case-insensitively), then `\s*` and the numeral. -/
def tryCodeAt (cs : List Char) : Option (String × List Char) :=
  currencyCodes.findSome? (fun code =>
    if codePrefixCI code cs then
      match scanNumber ((cs.drop 3).dropWhile Char.isWhitespace) with
      | some num => some (code, num)
      | none => none
    else none)

/-- Leftmost match of the ISO-code regex, tracking the previous character
for the `\b` word boundary. -/
def codeScanAux (prev : Option Char) : List Char → Option (String × List Char)
  | [] => none
  | c :: rest =>
    match (if (match prev with | some p => !isWordCh p | none => true) then
             tryCodeAt (c :: rest) else none) with
    | some r => some r
    | none => codeScanAux (some c) rest

def codeScan (cs : List Char) : Option (String × List Char) :=
  codeScanAux none cs

/-- `numeral.replace(/,/g, "")`. -/
def stripCommas (cs : List Char) : List Char :=
  cs.filter (fun c => c != ',')

/-- Value of a digit list as a natural number. -/
def digitsVal (cs : List Char) : Nat :=
  cs.foldl (fun n c => n * 10 + (c.toNat - '0'.toNat)) 0

/-- `Number.parseFloat` restricted to the numerals the scanners produce:
`[0-9]+` optionally followed by `.` and digits.  Returns `none` when no
leading digits exist (parseFloat would give `NaN`). -/
def jsParseFloatQ (cs : List Char) : Option ℚ :=
  let intPart := cs.takeWhile Char.isDigit
  if intPart.isEmpty then none
  else
    let rest := cs.dropWhile Char.isDigit
    let fracPart :=
      match rest with
      | '.' :: r2 => r2.takeWhile Char.isDigit
      | _ => []
    some ((digitsVal intPart : ℚ) + (digitsVal fracPart : ℚ) / ((10 : ℚ) ^ fracPart.length))

/-- `Number.isFinite` of the double nearest to the (non-negative) exact
value `q`: finite iff `q` rounds below `2^1024`. -/
def jsFiniteQ (q : ℚ) : Bool :=
  q < (2 : ℚ) ^ 1024 - (2 : ℚ) ^ 970

/-- `$` / `€` / `£` to ISO code. -/
def symToIso (sym : Char) : Option String :=
  if sym == '$' then some "USD"
  else if sym == '€' then some "EUR"
  else if sym == '£' then some "GBP"
  else none

structure ReceiptInfo where
  vendor : Option String := none
  amount : Option ℚ := none
  currency : Option String := none
  receipt_date : Option String := none
deriving DecidableEq, Repr

/-- `received_at || (internal_ts ? new Date(internal_ts).toISOString() : undefined)`
(`0` is a falsy `internal_ts`). -/
def messageTs (tsOfEpoch : Int → String) (m : PollMessage) : Option String :=
  let epochTs : Option String :=
    match m.internal_ts with
    | some n => if n == 0 then none else some (tsOfEpoch n)
    | none => none
  match m.received_at with
  | some s => if s.isEmpty then epochTs else some s
  | none => epochTs

/-- The matched amount before the `Number.isFinite` guard. -/
def rawAmount (m : PollMessage) : Option ℚ :=
  let text := (m.subject.getD "") ++ " " ++ (m.snippet.getD "")
  match symbolScan text.data with
  | some (_, num) => jsParseFloatQ (stripCommas num)
  | none =>
    match codeScan text.data with
    | some (_, num) => jsParseFloatQ (stripCommas num)
    | none => none

def parseReceiptInfo (tsOfEpoch : Int → String) (m : PollMessage) : ReceiptInfo :=
  let fromEmail := extractEmailAddress m.from_
  let vendor :=
    jsOrOpt (fromEmail.map (fun e => String.mk (e.data.takeWhile (fun c => c != '@'))))
      (extractDisplayName m.from_)
  let text := (m.subject.getD "") ++ " " ++ (m.snippet.getD "")
  let ac : Option ℚ × Option String :=
    match symbolScan text.data with
    | some (sym, num) => (jsParseFloatQ (stripCommas num), symToIso sym)
    | none =>
      match codeScan text.data with
      | some (code, num) => (jsParseFloatQ (stripCommas num), some code)
      | none => (none, none)
  { vendor := vendor,
    amount := match ac.1 with
              | some q => if jsFiniteQ q then some q else none
              | none => none,
    currency := ac.2,
    receipt_date := messageTs tsOfEpoch m }

/-! ## Notification formatter and Slack send -/

structure SlackEnv where
  slack_bot_token : Option String := none
  crm_slack_channel_id : Option String := none
  slack_channel_id : Option String := none
  crm_slack_channel : Option String := none

structure SlackHttpResp where
  /-- `response.ok` of the HTTP call. -/
  ok : Bool
  /-- `data.ok === true` of the decoded body. -/
  dataOk : Bool
  /-- `data.error` when it is a string. -/
  dataError : Option String := none
  /-- `response.status`. -/
  status : Nat := 200
deriving DecidableEq, Repr

structure SlackOutcome where
  posted : Bool
  error : Option String := none
deriving DecidableEq, Repr

/-- `formatSlackWhen`, with `Date.parse` as the `parse` parameter
(`none` = `NaN`). -/
def formatSlackWhen (parse : String → Option Int) (isoDate : Option String) : String :=
  match isoDate with
  | none => "n/a"
  | some iso =>
    if iso.isEmpty then "n/a"
    else
      match parse iso with
      | none => iso
      | some ms =>
        "<!date^" ++ toString (Int.fdiv ms 1000) ++
          "^\x7bdate_short_pretty\x7d \x7btime\x7d|" ++ iso ++ ">"

structure DraftSlackArgs where
  draftId : String
  toEmail : String
  fromName : Option String := none
  fromEmail : Option String := none
  accountEmail : String
  subject : String
  receivedAt : Option String := none

structure SlackMessage where
  /-- the plain-text summary; the block layout feeds only the external HTTP
  body and is not modelled. -/
  text : String
deriving DecidableEq, Repr

/-- Replace every occurrence of `pat` (non-empty) by `rep`
(`String.prototype.replace` with a `g`-flagged literal pattern); fuel-based
with fuel equal to the list length, which a match of a non-empty pattern
never exhausts. -/
def replaceSubGo (pat rep : List Char) : Nat → List Char → List Char
  | 0, cs => cs
  | _ + 1, [] => []
  | fuel + 1, c :: cs =>
    if pat.isEmpty then c :: replaceSubGo pat rep fuel cs
    else if leadsWith pat (c :: cs) then
      -- consume the match: `(c :: cs).drop pat.length` with `pat` non-empty
      rep ++ replaceSubGo pat rep fuel (cs.drop (pat.length - 1))
    else c :: replaceSubGo pat rep fuel cs

def replaceSub (pat rep cs : List Char) : List Char :=
  replaceSubGo pat rep cs.length cs

/-- `APPROVAL_HELP.replace(/<draft_id>/g, draftId)`. -/
def replaceDraftId (template draftId : String) : String :=
  String.mk (replaceSub "<draft_id>".data draftId.data template.data)

def buildDraftSlackMessage (parse : String → Option Int) (args : DraftSlackArgs) : SlackMessage :=
  let fromStr := jsOr args.fromEmail (jsOr args.fromName "unknown")
  let when := formatSlackWhen parse args.receivedAt
  let approvalCommands := replaceDraftId APPROVAL_HELP args.draftId
  { text := String.intercalate "\n"
      ["CRM lead draft ready", "Draft ID: " ++ args.draftId, "From: " ++ fromStr,
       "To: " ++ args.toEmail, "Subject: " ++ args.subject, "Received: " ++ when, "",
       approvalCommands] }

/-- `clean(process.env.SLACK_BOT_TOKEN)`. -/
def slackTokenOf (env : SlackEnv) : Option String :=
  cleanOpt env.slack_bot_token

/-- `clean(CRM_SLACK_CHANNEL_ID) || clean(SLACK_CHANNEL_ID) || clean(CRM_SLACK_CHANNEL)`. -/
def slackChannelOf (env : SlackEnv) : Option String :=
  jsOrOpt (cleanOpt env.crm_slack_channel_id)
    (jsOrOpt (cleanOpt env.slack_channel_id) (cleanOpt env.crm_slack_channel))

/-- `maybePostSlack`.  The `fetch`/`json()` pair is the `fetchR` parameter:
`.error e` models a rejected promise (thrown transport exception) and is
re-raised, exactly as the script has no `try`/`catch` around the call. -/
def maybePostSlack (env : SlackEnv) (fetchR : Except String SlackHttpResp) :
    Except String SlackOutcome :=
  let token := slackTokenOf env
  let channel := slackChannelOf env
  if token.isNone || channel.isNone then
    .ok { posted := false, error := some "CRM_SLACK_CHANNEL_ID or SLACK_BOT_TOKEN missing" }
  else
    match fetchR with
    | .error e => .error e
    | .ok resp =>
      if resp.ok && resp.dataOk then .ok { posted := true, error := none }
      else .ok { posted := false,
                 error := some (resp.dataError.getD ("slack-error-" ++ toString resp.status)) }

/-! ## Poll batch input -/

structure PerAccount where
  account_email : String
  fetched_count : Option Int := none
  error : Option String := none
deriving DecidableEq, Repr

structure PollFile where
  run_id : Option String := none
  started_at : Option String := none
  finished_at : Option String := none
  /-- the `partial_failure` flag of the batch. -/
  pf : Option Bool := none
  messages : List PollMessage
  per_account : Option (List PerAccount) := none
deriving DecidableEq, Repr

/-! ## Persistence payloads (the row objects the script sends to Supabase) -/

structure ContactPayload where
  email : String
  display_name : Option String := none
  last_seen_at : String
  source_account_email : String
  updated_at : String
deriving DecidableEq, Repr

structure ActivityPayload where
  source_key : String
  account_email : String
  message_id : String
  thread_id : Option String := none
  from_raw : Option String := none
  from_email : Option String := none
  from_name : Option String := none
  subject : Option String := none
  snippet : Option String := none
  received_at : Option String := none
  classification : Classification
  classification_confidence : ℚ
  classification_reasons : List String
  contact_id : Option String := none
  contact_email : Option String := none
  sop_hash : Option String := none
  payload : String
  updated_at : String
deriving DecidableEq, Repr

structure DraftPayload where
  activity_id : String
  account_email : String
  to_email : String
  subject : String
  body : String
  status : String
  approval_commands : String
  reply_to_message_id : String
  sop_hash : Option String := none
  updated_at : String
deriving DecidableEq, Repr

structure AccountingPayload where
  source_key : String
  activity_id : String
  account_email : String
  vendor : Option String := none
  amount : Option ℚ := none
  currency : Option String := none
  receipt_date : Option String := none
  subject : Option String := none
  snippet : Option String := none
  payload : String
  updated_at : String
deriving DecidableEq, Repr

structure JobRunStart where
  id : String
  started_at : String
  status : String
  degraded : Bool
  /-- `poll_partial_failure` column. -/
  poll_pf : Bool
  polled_messages : Nat
  accounts : List PerAccount
  updated_at : String
deriving DecidableEq, Repr

structure JobRunFinal where
  finished_at : String
  status : String
  degraded : Bool
  metrics_polled : Nat
  metrics_processed : Nat
  metrics_activities : Nat
  metrics_drafts : Nat
  metrics_accounting : Nat
  warnings : List String
  updated_at : String
deriving DecidableEq, Repr

structure PollStatePayload where
  account_email : String
  last_polled_at : String
  last_message_ts : Option String := none
  updated_at : String
deriving DecidableEq, Repr

/-! ## The persistence world

Each field models one `supabaseUpsertRow` / `supabasePatchRows` call site
with its `on_conflict` unique key (contacts: `email`, activities:
`source_key`, drafts: `activity_id`, accounting: `source_key`, job runs:
`id`, poll state: `account_email`).  Upserts whose returned row the script
reads give back the row's `id` field (`none` when the returned row has no
usable string id); the others return only the evolved state.  `.error`
models a thrown `supabaseRequest` (HTTP failure). -/

structure World (σ : Type) where
  upsertJobRun : JobRunStart → σ → Except String σ
  upsertContact : ContactPayload → σ → Except String (Option String × σ)
  upsertActivity : ActivityPayload → σ → Except String (Option String × σ)
  upsertDraft : DraftPayload → σ → Except String (Option String × σ)
  /-- patch of the draft row (filter `id = draftId`) with
  `slack_summary` and `updated_at`. -/
  patchDraftSlack : String → String → String → σ → Except String σ
  upsertAccounting : AccountingPayload → σ → Except String σ
  upsertPollState : PollStatePayload → σ → Except String σ
  /-- patch of the job-run row (filter `id = runId`) with the final fields. -/
  patchJobRunFinal : String → JobRunFinal → σ → Except String σ

/-! ## Run configuration and result -/

structure RunCfg where
  env : SlackEnv
  /-- outcome of the Slack `fetch`/`json()` pair (same for every call). -/
  fetchR : Except String SlackHttpResp
  /-- `Date.parse` (`none` = `NaN`). -/
  parse : String → Option Int
  /-- `new Date(ms).toISOString()`. -/
  tsOfEpoch : Int → String
  /-- `new Date().toISOString()` (single-clock model). -/
  now : String
  /-- `randomUUID()`. -/
  uuid : String
  sop : Option SopSnapshot := none

structure CCounts where
  receipt : Nat := 0
  sales : Nat := 0
  support : Nat := 0
  ignore : Nat := 0
deriving DecidableEq, Repr

def CCounts.inc (c : CCounts) : Classification → CCounts
  | .receipt => { c with receipt := c.receipt + 1 }
  | .sales => { c with sales := c.sales + 1 }
  | .support => { c with support := c.support + 1 }
  | .ignore => { c with ignore := c.ignore + 1 }

structure Totals where
  polled_messages : Nat
  processed_messages : Nat
  activities_upserted : Nat
  drafts_upserted : Nat
  accounting_entries_upserted : Nat
deriving DecidableEq, Repr

structure SalesDraftEntry where
  draft_id : String
  activity_id : String
  account_email : String
  to_email : String
  slack_posted : Bool
  slack_error : Option String := none
deriving DecidableEq, Repr

structure AccountingEntry where
  activity_id : String
  source_key : String
  vendor : Option String := none
  amount : Option ℚ := none
  currency : Option String := none
deriving DecidableEq, Repr

structure PollStateUpdate where
  account_email : String
  last_polled_at : String
  last_message_ts : Option String := none
deriving DecidableEq, Repr

structure ProcessResult where
  run_id : String
  started_at : String
  finished_at : String
  /-- `"ok"` or `"partial_failure"`. -/
  status : String
  degraded : Bool
  totals : Totals
  classification_counts : CCounts
  sales_drafts : List SalesDraftEntry
  accounting_entries : List AccountingEntry
  poll_state_updates : List PollStateUpdate
  warnings : List String
deriving DecidableEq, Repr

def sopDegraded (sop : Option SopSnapshot) : Bool :=
  match sop with
  | some s => s.degraded == some true
  | none => false

def sopHash (sop : Option SopSnapshot) : Option String :=
  (sop.bind (·.sop)).bind (·.hash)

def initWarnings (sop : Option SopSnapshot) : List String :=
  (if sopDegraded sop then
     match sop with
     | some s => s.warnings.getD []
     | none => []
   else []) ++
  (match sop with
   | none => ["No SOP snapshot found; continuing with default routing behavior."]
   | some _ => [])

/-! ## Watermark tracking (`maxTsByAccount`) -/

def lookupAssoc (l : List (String × String)) (k : String) : Option String :=
  (l.find? (fun p => p.1 == k)).map (·.2)

def setAssoc (l : List (String × String)) (k v : String) : List (String × String) :=
  match l with
  | [] => [(k, v)]
  | (k', v') :: rest => if k' == k then (k, v) :: rest else (k', v') :: setAssoc rest k v

/-- `Date.parse(a) > Date.parse(b)` with JS `NaN` comparison semantics
(`NaN` compares false against everything). -/
def parseGt (parse : String → Option Int) (a b : String) : Bool :=
  match parse a, parse b with
  | some x, some y => y < x
  | _, _ => false

/-- One iteration of the `maxTsByAccount` update. -/
def wmStep (parse : String → Option Int) (tsOfEpoch : Int → String)
    (acc : List (String × String)) (m : PollMessage) : List (String × String) :=
  match messageTs tsOfEpoch m with
  | none => acc
  | some ts =>
    if ts.isEmpty then acc
    else
      match lookupAssoc acc m.account_email with
      | none => setAssoc acc m.account_email ts
      | some prior => if parseGt parse ts prior then setAssoc acc m.account_email ts else acc

/-- The per-mailbox watermark map accumulated over a message list. -/
def finalWM (parse : String → Option Int) (tsOfEpoch : Int → String)
    (msgs : List PollMessage) : List (String × String) :=
  msgs.foldl (wmStep parse tsOfEpoch) []

/-! ## The orchestrator loop -/

structure LoopState (σ : Type) where
  counts : CCounts
  processedN : Nat
  activitiesN : Nat
  draftsN : Nat
  acctN : Nat
  salesDrafts : List SalesDraftEntry
  acctEntries : List AccountingEntry
  maxTs : List (String × String)
  st : σ

/-- Contact upsert for sales/support messages with a resolvable sender. -/
def contactStep {σ : Type} (W : World σ) (cfg : RunCfg) (m : PollMessage)
    (cls : ClassificationResult) (senderEmail senderName : Option String)
    (ts : Option String) (s : σ) : Except String (Option String × σ) :=
  if strT senderEmail && (cls.label == Classification.sales || cls.label == Classification.support)
  then
    match W.upsertContact
        { email := senderEmail.getD "", display_name := senderName,
          last_seen_at := jsOr ts cfg.now, source_account_email := m.account_email,
          updated_at := cfg.now } s with
    | .error e => .error e
    | .ok (cid, s') => .ok (cid, s')
  else .ok (none, s)

/-- Activity upsert; a returned row without a string `id` aborts the run. -/
def activityStep {σ : Type} (W : World σ) (cfg : RunCfg) (m : PollMessage)
    (cls : ClassificationResult) (senderEmail senderName : Option String)
    (ts contactId : Option String) (s : σ) : Except String (String × σ) :=
  match W.upsertActivity
      { source_key := m.source_key, account_email := m.account_email,
        message_id := m.message_id, thread_id := m.thread_id, from_raw := m.from_,
        from_email := senderEmail, from_name := senderName, subject := m.subject,
        snippet := m.snippet, received_at := ts, classification := cls.label,
        classification_confidence := cls.confidence,
        classification_reasons := cls.reasons, contact_id := contactId,
        contact_email := senderEmail, sop_hash := sopHash cfg.sop,
        payload := m.raw.getD "", updated_at := cfg.now } s with
  | .error e => .error e
  | .ok (some aid, s') => .ok (aid, s')
  | .ok (none, _) => .error ("Missing activity id after upsert for source_key=" ++ m.source_key)

/-- Sales branch: draft upsert, patch with the Slack summary, best-effort
Slack send. -/
def salesStep {σ : Type} (W : World σ) (cfg : RunCfg) (m : PollMessage)
    (senderEmail senderName ts : Option String) (sopCues : List String) (aid : String)
    (s : σ) : Except String (SalesDraftEntry × σ) :=
  let draft := buildSalesDraft
    { senderDisplayName := senderName, senderEmail := senderEmail, subject := m.subject,
      snippet := m.snippet, sopCues := sopCues }
  let toEmail := jsOr senderEmail "unknown@example.com"
  match W.upsertDraft
      { activity_id := aid, account_email := m.account_email, to_email := toEmail,
        subject := draft.subject, body := draft.body, status := "draft",
        approval_commands := APPROVAL_HELP, reply_to_message_id := m.message_id,
        sop_hash := sopHash cfg.sop, updated_at := cfg.now } s with
  | .error e => .error e
  | .ok (none, _) => .error ("Missing draft id after upsert for activity_id=" ++ aid)
  | .ok (some did, s1) =>
    let slackMsg := buildDraftSlackMessage cfg.parse
      { draftId := did, toEmail := toEmail, fromName := senderName, fromEmail := senderEmail,
        accountEmail := m.account_email, subject := draft.subject, receivedAt := ts }
    match W.patchDraftSlack did slackMsg.text cfg.now s1 with
    | .error e => .error e
    | .ok s2 =>
      match maybePostSlack cfg.env cfg.fetchR with
      | .error e => .error e
      | .ok slack =>
        .ok ({ draft_id := did, activity_id := aid, account_email := m.account_email,
               to_email := toEmail, slack_posted := slack.posted,
               slack_error := slack.error }, s2)

/-- Receipt branch: parse the record and upsert it keyed by `source_key`. -/
def receiptStep {σ : Type} (W : World σ) (cfg : RunCfg) (m : PollMessage) (aid : String)
    (s : σ) : Except String (AccountingEntry × σ) :=
  let parsed := parseReceiptInfo cfg.tsOfEpoch m
  match W.upsertAccounting
      { source_key := m.source_key, activity_id := aid, account_email := m.account_email,
        vendor := parsed.vendor, amount := parsed.amount, currency := parsed.currency,
        receipt_date := parsed.receipt_date, subject := m.subject, snippet := m.snippet,
        payload := m.raw.getD "", updated_at := cfg.now } s with
  | .error e => .error e
  | .ok s' => .ok ({ activity_id := aid, source_key := m.source_key, vendor := parsed.vendor,
                     amount := parsed.amount, currency := parsed.currency }, s')

/-- The per-message body of the orchestrator loop. -/
def processOneMessage {σ : Type} (W : World σ) (cfg : RunCfg) (sopCues : List String)
    (st : LoopState σ) (m : PollMessage) : Except String (LoopState σ) :=
  let cls := classifyInbound m
  let counts := st.counts.inc cls.label
  let senderEmail := extractEmailAddress m.from_
  let senderName := extractDisplayName m.from_
  let ts := messageTs cfg.tsOfEpoch m
  let maxTs := wmStep cfg.parse cfg.tsOfEpoch st.maxTs m
  match contactStep W cfg m cls senderEmail senderName ts st.st with
  | .error e => .error e
  | .ok (contactId, s1) =>
    match activityStep W cfg m cls senderEmail senderName ts contactId s1 with
    | .error e => .error e
    | .ok (aid, s2) =>
      let base : LoopState σ :=
        { st with counts := counts, maxTs := maxTs, st := s2,
                  activitiesN := st.activitiesN + 1 }
      let afterSales : Except String (LoopState σ) :=
        if cls.label == Classification.sales then
          match salesStep W cfg m senderEmail senderName ts sopCues aid base.st with
          | .error e => .error e
          | .ok (entry, s3) =>
            .ok { base with st := s3, salesDrafts := base.salesDrafts ++ [entry],
                            draftsN := base.draftsN + 1 }
        else .ok base
      match afterSales with
      | .error e => .error e
      | .ok st2 =>
        if cls.label == Classification.receipt then
          match receiptStep W cfg m aid st2.st with
          | .error e => .error e
          | .ok (entry, s4) =>
            .ok { st2 with st := s4, acctEntries := st2.acctEntries ++ [entry],
                           acctN := st2.acctN + 1, processedN := st2.processedN + 1 }
        else .ok { st2 with processedN := st2.processedN + 1 }

def processMessages {σ : Type} (W : World σ) (cfg : RunCfg) (sopCues : List String) :
    List PollMessage → LoopState σ → Except String (LoopState σ)
  | [], st => .ok st
  | m :: rest, st =>
    match processOneMessage W cfg sopCues st m with
    | .error e => .error e
    | .ok st' => processMessages W cfg sopCues rest st'

/-- `accountSet` insertion order: message mailboxes first, then truthy
per-account summary mailboxes. -/
def accountList (poll : PollFile) : List String :=
  dedupKeepFirst
    (poll.messages.map (·.account_email) ++
      ((poll.per_account.getD []).filter (fun e => !e.account_email.isEmpty)).map
        (·.account_email))

def pollStateLoop {σ : Type} (W : World σ) (cfg : RunCfg)
    (maxTs : List (String × String)) :
    List String → List PollStateUpdate → σ → Except String (List PollStateUpdate × σ)
  | [], acc, s => .ok (acc, s)
  | a :: rest, acc, s =>
    let row : PollStatePayload :=
      { account_email := a, last_polled_at := cfg.now,
        last_message_ts := lookupAssoc maxTs a, updated_at := cfg.now }
    match W.upsertPollState row s with
    | .error e => .error e
    | .ok s' =>
      pollStateLoop W cfg maxTs rest
        (acc ++ [{ account_email := a, last_polled_at := row.last_polled_at,
                   last_message_ts := row.last_message_ts }]) s'

/-- The whole `process_inbound` run (after CLI/config validation, which is
out of scope): persist the running job-run row, process every message,
persist per-mailbox watermarks, compute the terminal status and patch the
job-run row with it. -/
def processRun {σ : Type} (W : World σ) (cfg : RunCfg) (poll : PollFile) (s0 : σ) :
    Except String (ProcessResult × σ) :=
  let startedAt := cfg.now
  let sopCues := pickSopCues cfg.sop
  let runId := jsOr poll.run_id cfg.uuid
  let degraded := sopDegraded cfg.sop
  match W.upsertJobRun
      { id := runId, started_at := jsOr poll.started_at startedAt, status := "running",
        degraded := degraded, poll_pf := poll.pf == some true,
        polled_messages := poll.messages.length, accounts := poll.per_account.getD [],
        updated_at := cfg.now } s0 with
  | .error e => .error e
  | .ok s1 =>
    let st0 : LoopState σ :=
      { counts := {}, processedN := 0, activitiesN := 0, draftsN := 0, acctN := 0,
        salesDrafts := [], acctEntries := [], maxTs := [], st := s1 }
    match processMessages W cfg sopCues poll.messages st0 with
    | .error e => .error e
    | .ok st =>
      match pollStateLoop W cfg st.maxTs (accountList poll) [] st.st with
      | .error e => .error e
      | .ok (updates, s2) =>
        let statusStr :=
          if (poll.pf == some true) || st.salesDrafts.any (fun d => !d.slack_posted) then
            "partial_failure"
          else "ok"
        let res : ProcessResult :=
          { run_id := runId, started_at := startedAt, finished_at := cfg.now,
            status := statusStr, degraded := degraded,
            totals := { polled_messages := poll.messages.length,
                        processed_messages := st.processedN,
                        activities_upserted := st.activitiesN,
                        drafts_upserted := st.draftsN,
                        accounting_entries_upserted := st.acctN },
            classification_counts := st.counts, sales_drafts := st.salesDrafts,
            accounting_entries := st.acctEntries, poll_state_updates := updates,
            warnings := initWarnings cfg.sop }
        match W.patchJobRunFinal runId
            { finished_at := res.finished_at, status := res.status, degraded := res.degraded,
              metrics_polled := res.totals.polled_messages,
              metrics_processed := res.totals.processed_messages,
              metrics_activities := res.totals.activities_upserted,
              metrics_drafts := res.totals.drafts_upserted,
              metrics_accounting := res.totals.accounting_entries_upserted,
              warnings := res.warnings, updated_at := cfg.now } s2 with
        | .error e => .error e
        | .ok s3 => .ok (res, s3)

/-! ## An honest keyed row store (`dbWorld`)

Models a Supabase instance that behaves: every upsert with
`resolution=merge-duplicates,return=representation` either merges into the
row with the same unique key (keeping its `id`) or inserts a fresh row with
a server-generated `id`, and always returns the row. -/

structure Row (α : Type) where
  id : String
  data : α
deriving DecidableEq, Repr

structure DraftRow where
  id : String
  data : DraftPayload
  slack_summary : Option String := none
  patched_at : Option String := none
deriving DecidableEq, Repr

structure JobRunRow where
  start : JobRunStart
  final : Option JobRunFinal := none
deriving DecidableEq, Repr

structure Store where
  contacts : List (Row ContactPayload) := []
  activities : List (Row ActivityPayload) := []
  drafts : List DraftRow := []
  accounting : List (Row AccountingPayload) := []
  jobRuns : List JobRunRow := []
  pollState : List PollStatePayload := []
  nextId : Nat := 0
deriving DecidableEq, Repr

/-- Replace the (first) row with key `k`, or append a new one. -/
def upsertRows {ρ : Type} (keyOf : ρ → String) (k : String) (ins : ρ) (merge : ρ → ρ) :
    List ρ → List ρ
  | [] => [ins]
  | r :: rs =>
    if keyOf r == k then merge r :: rs else r :: upsertRows keyOf k ins merge rs

def lookupRow {ρ : Type} (keyOf : ρ → String) (k : String) (l : List ρ) : Option ρ :=
  l.find? (fun r => keyOf r == k)

def genId (n : Nat) : String := "row-" ++ toString n

def dbUpsertContact (p : ContactPayload) (s : Store) : Except String (Option String × Store) :=
  match lookupRow (fun r => r.data.email) p.email s.contacts with
  | some r =>
    .ok (some r.id,
      { s with contacts := upsertRows (fun r => r.data.email) p.email ⟨r.id, p⟩
                 (fun old => ⟨old.id, p⟩) s.contacts })
  | none =>
    let i := genId s.nextId
    .ok (some i,
      { s with contacts := upsertRows (fun r => r.data.email) p.email ⟨i, p⟩
                 (fun old => ⟨old.id, p⟩) s.contacts,
               nextId := s.nextId + 1 })

def dbUpsertActivity (p : ActivityPayload) (s : Store) :
    Except String (Option String × Store) :=
  match lookupRow (fun r => r.data.source_key) p.source_key s.activities with
  | some r =>
    .ok (some r.id,
      { s with activities := upsertRows (fun r => r.data.source_key) p.source_key ⟨r.id, p⟩
                 (fun old => ⟨old.id, p⟩) s.activities })
  | none =>
    let i := genId s.nextId
    .ok (some i,
      { s with activities := upsertRows (fun r => r.data.source_key) p.source_key ⟨i, p⟩
                 (fun old => ⟨old.id, p⟩) s.activities,
               nextId := s.nextId + 1 })

def draftKey (r : DraftRow) : String := r.data.activity_id

def dbUpsertDraft (p : DraftPayload) (s : Store) : Except String (Option String × Store) :=
  match lookupRow draftKey p.activity_id s.drafts with
  | some r =>
    .ok (some r.id,
      { s with drafts := upsertRows draftKey p.activity_id
                 { id := r.id, data := p, slack_summary := r.slack_summary,
                   patched_at := r.patched_at }
                 (fun old => { old with data := p }) s.drafts })
  | none =>
    let i := genId s.nextId
    .ok (some i,
      { s with drafts := upsertRows draftKey p.activity_id { id := i, data := p }
                 (fun old => { old with data := p }) s.drafts,
               nextId := s.nextId + 1 })

def dbPatchDraftSlack (did text upd : String) (s : Store) : Except String Store :=
  .ok { s with drafts := s.drafts.map (fun r =>
          if r.id == did then { r with slack_summary := some text, patched_at := some upd }
          else r) }

def dbUpsertAccounting (p : AccountingPayload) (s : Store) : Except String Store :=
  match lookupRow (fun r => r.data.source_key) p.source_key s.accounting with
  | some r =>
    .ok { s with accounting := upsertRows (fun r => r.data.source_key) p.source_key ⟨r.id, p⟩
                   (fun old => ⟨old.id, p⟩) s.accounting }
  | none =>
    let i := genId s.nextId
    .ok { s with accounting := upsertRows (fun r => r.data.source_key) p.source_key ⟨i, p⟩
                   (fun old => ⟨old.id, p⟩) s.accounting,
                 nextId := s.nextId + 1 }

def dbUpsertJobRun (p : JobRunStart) (s : Store) : Except String Store :=
  .ok { s with jobRuns := upsertRows (fun r => r.start.id) p.id { start := p }
                 (fun old => { old with start := p }) s.jobRuns }

def dbUpsertPollState (p : PollStatePayload) (s : Store) : Except String Store :=
  .ok { s with pollState := upsertRows (fun r => r.account_email) p.account_email p
                 (fun _ => p) s.pollState }

def dbPatchJobRunFinal (runId : String) (p : JobRunFinal) (s : Store) :
    Except String Store :=
  .ok { s with jobRuns := s.jobRuns.map (fun r =>
          if r.start.id == runId then { r with final := some p } else r) }

def dbWorld : World Store where
  upsertJobRun := dbUpsertJobRun
  upsertContact := dbUpsertContact
  upsertActivity := dbUpsertActivity
  upsertDraft := dbUpsertDraft
  patchDraftSlack := dbPatchDraftSlack
  upsertAccounting := dbUpsertAccounting
  upsertPollState := dbUpsertPollState
  patchJobRunFinal := dbPatchJobRunFinal

/-! ## Degenerate worlds

These model a persistence substrate whose upsert calls succeed at the HTTP
level but return a representation without a usable string `id` for one
particular table (`supabaseUpsertRow` then falls back to returning the
input row, which carries no `id`). -/

/-- Contact upserts return a row without an id; everything else behaves. -/
def noContactIdWorld : World Unit where
  upsertJobRun := fun _ _ => .ok ()
  upsertContact := fun _ _ => .ok (none, ())
  upsertActivity := fun _ _ => .ok (some "aid", ())
  upsertDraft := fun _ _ => .ok (some "did", ())
  patchDraftSlack := fun _ _ _ _ => .ok ()
  upsertAccounting := fun _ _ => .ok ()
  upsertPollState := fun _ _ => .ok ()
  patchJobRunFinal := fun _ _ _ => .ok ()

/-- Activity upserts return a row without an id. -/
def noActivityIdWorld : World Unit where
  upsertJobRun := fun _ _ => .ok ()
  upsertContact := fun _ _ => .ok (some "cid", ())
  upsertActivity := fun _ _ => .ok (none, ())
  upsertDraft := fun _ _ => .ok (some "did", ())
  patchDraftSlack := fun _ _ _ _ => .ok ()
  upsertAccounting := fun _ _ => .ok ()
  upsertPollState := fun _ _ => .ok ()
  patchJobRunFinal := fun _ _ _ => .ok ()

/-- Draft upserts return a row without an id. -/
def noDraftIdWorld : World Unit where
  upsertJobRun := fun _ _ => .ok ()
  upsertContact := fun _ _ => .ok (some "cid", ())
  upsertActivity := fun _ _ => .ok (some "aid", ())
  upsertDraft := fun _ _ => .ok (none, ())
  patchDraftSlack := fun _ _ _ _ => .ok ()
  upsertAccounting := fun _ _ => .ok ()
  upsertPollState := fun _ _ => .ok ()
  patchJobRunFinal := fun _ _ _ => .ok ()

/-! ## Derived predicates used by the verification -/

/-- `foldl` step of the per-mailbox watermark restricted to one mailbox's
timestamps. -/
def tsStep (parse : String → Option Int) (acc : Option String) (ts : String) :
    Option String :=
  match acc with
  | none => some ts
  | some prior => if parseGt parse ts prior then some ts else some prior

/-- The usable (`if (messageTs)`) timestamps of mailbox `a`'s messages, in
batch order. -/
def accountTss (tsOfEpoch : Int → String) (a : String) (msgs : List PollMessage) :
    List String :=
  msgs.filterMap (fun m =>
    if m.account_email == a then
      match messageTs tsOfEpoch m with
      | some ts => if ts.isEmpty then none else some ts
      | none => none
    else none)

/-- `Date.parse(u) ≤ Date.parse(t)`, requiring both to parse. -/
def parseLe (parse : String → Option Int) (u t : String) : Bool :=
  match parse u, parse t with
  | some x, some y => x ≤ y
  | _, _ => false

def Store.actRow (s : Store) (k : String) : Option (Row ActivityPayload) :=
  lookupRow (fun r => r.data.source_key) k s.activities

def Store.draftRow (s : Store) (aid : String) : Option DraftRow :=
  lookupRow draftKey aid s.drafts

def Store.acctRow (s : Store) (k : String) : Option (Row AccountingPayload) :=
  lookupRow (fun r => r.data.source_key) k s.accounting

def Store.contactRow (s : Store) (e : String) : Option (Row ContactPayload) :=
  lookupRow (fun r => r.data.email) e s.contacts

/-- The row counts the idempotence claim is about. -/
def tableLens (s : Store) : Nat × Nat × Nat :=
  (s.activities.length, s.drafts.length, s.accounting.length)

/-- All rows a processed message leaves behind, with the activity id the
dedup key resolves to. -/
def MsgPersisted (s : Store) (m : PollMessage) : Prop :=
  ∃ r, s.actRow m.source_key = some r ∧
    ((classifyInbound m).label = Classification.sales → (s.draftRow r.id).isSome = true) ∧
    ((classifyInbound m).label = Classification.receipt →
      (s.acctRow m.source_key).isSome = true)

/-- Monotonicity of the three claim-relevant tables under further store
operations: rows are never deleted and keep their ids. -/
def StoreMono (s s' : Store) : Prop :=
  (∀ k r, s.actRow k = some r → ∃ r', s'.actRow k = some r' ∧ r'.id = r.id) ∧
  (∀ a, (s.draftRow a).isSome = true → (s'.draftRow a).isSome = true) ∧
  (∀ k, (s.acctRow k).isSome = true → (s'.acctRow k).isSome = true)

/-- A world (plus Slack environment/transport) none of whose operations
throws, and whose activity/draft upserts always yield a usable id. -/
structure WorldTotal {σ : Type} (W : World σ) (env : SlackEnv)
    (fetchR : Except String SlackHttpResp) : Prop where
  jobrun : ∀ p s, ∃ s', W.upsertJobRun p s = .ok s'
  contact : ∀ p s, ∃ r, W.upsertContact p s = .ok r
  activity : ∀ p s, ∃ i s', W.upsertActivity p s = .ok (some i, s')
  draft : ∀ p s, ∃ i s', W.upsertDraft p s = .ok (some i, s')
  patchDraft : ∀ i t u s, ∃ s', W.patchDraftSlack i t u s = .ok s'
  accounting : ∀ p s, ∃ s', W.upsertAccounting p s = .ok s'
  pollstate : ∀ p s, ∃ s', W.upsertPollState p s = .ok s'
  patchFinal : ∀ i p s, ∃ s', W.patchJobRunFinal i p s = .ok s'
  slack : ∃ o, maybePostSlack env fetchR = .ok o

/-! ## Concrete example inputs used by witnesses and counterexamples -/

def envNone : SlackEnv := {}

def envFull : SlackEnv :=
  { slack_bot_token := some "tok", crm_slack_channel_id := some "chan" }

def respOk : SlackHttpResp := { ok := true, dataOk := true }

def respBad : SlackHttpResp :=
  { ok := true, dataOk := false, dataError := some "channel_not_found" }

/-- A concrete stand-in for `Date.parse` on the integer timestamp strings
used by the examples: parses an optionally negated digit string, `none`
(`NaN`) otherwise. -/
def tsParse (s : String) : Option Int :=
  let digits : List Char → Option Int := fun cs =>
    if cs.isEmpty || !cs.all Char.isDigit then none else some (digitsVal cs : Int)
  match s.data with
  | '-' :: rest => (digits rest).map (fun n => -n)
  | l => digits l

/-- Base configuration: no Slack credentials (so sends are captured as
missing-credential outcomes), `Date.parse` instantiated with integer
timestamp strings. -/
def cfg0 : RunCfg :=
  { env := envNone, fetchR := .ok respOk, parse := tsParse,
    tsOfEpoch := fun n => toString n, now := "900", uuid := "uuid-1" }

def mJob : PollMessage :=
  { account_email := "me@x.com", message_id := "1", source_key := "k1",
    subject := some "job alert: exciting opportunity",
    from_ := some "jobalerts@linkedin.com" }

def mJane : PollMessage :=
  { account_email := "me@x.com", message_id := "2", source_key := "k2",
    subject := some "Consulting inquiry", from_ := some "Jane Doe <jane@acmeco.com>",
    snippet := some "We are interested in a retainer engagement, could we book a call?",
    received_at := some "100" }

def mBill : PollMessage :=
  { account_email := "me@x.com", message_id := "3", source_key := "k3",
    subject := some "Invoice #1029", from_ := some "billing@vendor.com",
    snippet := some "Your payment of $240.00 has been charged",
    received_at := some "150" }

def mNoReply : PollMessage :=
  { account_email := "me@x.com", message_id := "4", source_key := "k4",
    subject := some "Our product demo", from_ := some "no-reply@vendorx.com",
    snippet := some "See our pricing plans" }

def mDemo : PollMessage :=
  { account_email := "me@x.com", message_id := "5", source_key := "k5",
    subject := some "demo", from_ := some "no-reply@acme.com" }

def mBad : PollMessage :=
  { account_email := "m", message_id := "b", source_key := "kb",
    received_at := some "bad" }

def mTwo : PollMessage :=
  { account_email := "m", message_id := "t", source_key := "kt",
    received_at := some "2" }

def mT1 : PollMessage :=
  { account_email := "m", message_id := "w1", source_key := "kw1",
    received_at := some "1" }

def mT2 : PollMessage :=
  { account_email := "m", message_id := "w2", source_key := "kw2",
    received_at := some "2" }

def mT3 : PollMessage :=
  { account_email := "m", message_id := "w3", source_key := "kw3",
    received_at := some "3" }

/-- A 400-digit numeral (`1` followed by 399 zeros, value `10^399`). -/
def bigToken : List Char := '1' :: List.replicate 399 '0'

/-- A receipt whose dollar amount overflows the IEEE double range. -/
def mBig : PollMessage :=
  { account_email := "me@x.com", message_id := "9", source_key := "k9",
    subject := some ("receipt " ++ "$" ++ String.mk bigToken) }

def pollBoth : PollFile := { run_id := some "r1", messages := [mJane, mBill] }

def pollFlag : PollFile := { run_id := some "rc", pf := some true, messages := [mBill] }

def pollJane : PollFile := { run_id := some "r3", messages := [mJane] }

def pollBadTwo : PollFile := { run_id := some "ra", messages := [mBad, mTwo] }

def pollTwoBad : PollFile := { run_id := some "rb", messages := [mTwo, mBad] }

/-- A store already holding a contact for Jane with a newer last-seen
timestamp (`"200"`) than `mJane`'s (`"100"`). -/
def storeJane : Store :=
  { contacts :=
      [⟨"c0", { email := "jane@acmeco.com", display_name := some "Jane",
                last_seen_at := "200", source_account_email := "me@x.com",
                updated_at := "t0" }⟩],
    nextId := 1 }

/-- A fallback pair for extracting concrete run results. -/
def dfltPR : ProcessResult × Store :=
  ({ run_id := "", started_at := "", finished_at := "", status := "", degraded := false,
     totals := { polled_messages := 0, processed_messages := 0, activities_upserted := 0,
                 drafts_upserted := 0, accounting_entries_upserted := 0 },
     classification_counts := {}, sales_drafts := [], accounting_entries := [],
     poll_state_updates := [], warnings := [] }, {})

/-- Timestamps arriving in order 1, 3, 2. -/
def pollW : PollFile := { run_id := some "rw", messages := [mT1, mT3, mT2] }

/-- The same three messages in another order. -/
def pollW2 : PollFile := { run_id := some "rw2", messages := [mT2, mT3, mT1] }

/-- A fallback loop state for extracting concrete per-message results. -/
def dfltLS : LoopState Store :=
  { counts := {}, processedN := 0, activitiesN := 0, draftsN := 0, acctN := 0,
    salesDrafts := [], acctEntries := [], maxTs := [], st := {} }

/-- The loop state at the start of a batch over `storeJane`. -/
def lsJane : LoopState Store :=
  { counts := {}, processedN := 0, activitiesN := 0, draftsN := 0, acctN := 0,
    salesDrafts := [], acctEntries := [], maxTs := [], st := storeJane }

/-! # Theorems -/

/-! ## C1: Stage-1 automation-gate precedence -/

/-- C1: for every message matching an automated-sender, automated-text,
hiring, job-network-domain or vendor-system-domain signal and containing no
direct-inquiry phrase, `classifyInbound` returns label `ignore`, confidence
0.94 and reason `non-business-automation-filter` — regardless of any
receipt/sales/support keyword hits, i.e. before lexicon scoring. -/
theorem c1_automation_gate (m : PollMessage)
    (hsig : (likelyNonHumanSender m || looksHiring m) = true)
    (hdir : hasDirectInquiry m = false) :
    classifyInbound m =
      { label := .ignore, confidence := 0.94, reasons := ["non-business-automation-filter"] } := by
  simp [classifyInbound, hsig, hdir]

/-- C1 witness: the spec's own instance — sender `jobalerts@linkedin.com`,
subject "job alert: exciting opportunity". -/
theorem c1_automation_gate_witness :
    (likelyNonHumanSender mJob || looksHiring mJob) = true ∧
    hasDirectInquiry mJob = false ∧
    classifyInbound mJob =
      { label := .ignore, confidence := 0.94, reasons := ["non-business-automation-filter"] } :=
  ⟨by decide, by decide, c1_automation_gate mJob (by decide) (by decide)⟩

/-! ## C5: receipt rule fires before the sales rule -/

/-- C5: for every message passing the Stage-1 gate whose receipt score is
positive and at least its sales score, `classifyInbound` returns label
`receipt` with confidence `min (0.65 + 0.08·score) 0.96`. -/
theorem c5_receipt_priority (m : PollMessage)
    (hgate : ((likelyNonHumanSender m || looksHiring m) && !hasDirectInquiry m) = false)
    (hr : 0 < receiptScore m) (hs : salesScore m ≤ receiptScore m) :
    classifyInbound m =
      { label := .receipt, confidence := min (0.65 + (receiptScore m : ℚ) * 0.08) 0.96,
        reasons := ["matched-receipt-signals"] } := by
  simp [classifyInbound, hgate, hr, hs]

/-- C5 witness: an invoice message that also contains no stronger sales
vocabulary (receipt score 5, sales score 0) is labeled `receipt` with
confidence `min (0.65 + 5·0.08) 0.96 = 0.96`. -/
theorem c5_receipt_priority_witness :
    ((likelyNonHumanSender mBill || looksHiring mBill) && !hasDirectInquiry mBill) = false ∧
    0 < receiptScore mBill ∧ salesScore mBill ≤ receiptScore mBill ∧
    classifyInbound mBill =
      { label := .receipt, confidence := min (0.65 + (receiptScore mBill : ℚ) * 0.08) 0.96,
        reasons := ["matched-receipt-signals"] } :=
  ⟨by decide, by decide, by decide,
    c5_receipt_priority mBill (by decide) (by decide) (by decide)⟩

/-! ## C6: sales requires a direct inquiry (corrected)

The claim as stated quantifies over *every* message with a positive sales
score and no effective receipt priority, and asserts that absence of a
direct-inquiry phrase (or an automated/hiring sender) yields `ignore` with
confidence 0.90 and reason `sales-needs-human-direct-inquiry`.  But when no
direct-inquiry phrase is present *and* the sender looks automated/hiring,
the Stage-1 gate already returns `ignore` with confidence 0.94 and reason
`non-business-automation-filter` before the sales rule is reached, so the
asserted output is wrong there.  The rule holds for messages that pass the
Stage-1 gate. -/

/-- C6 counterexample: `no-reply@acme.com` with subject "demo" has sales
score 1, no receipt priority and no direct-inquiry phrase, but is classified
by the Stage-1 gate as `ignore`/0.94/`non-business-automation-filter`, not
as `ignore`/0.90/`sales-needs-human-direct-inquiry` as the claim asserts. -/
theorem c6_counterexample :
    0 < salesScore mDemo ∧
    ¬(0 < receiptScore mDemo ∧ salesScore mDemo ≤ receiptScore mDemo) ∧
    hasDirectInquiry mDemo = false ∧
    classifyInbound mDemo ≠
      { label := .ignore, confidence := 0.9, reasons := ["sales-needs-human-direct-inquiry"] } ∧
    classifyInbound mDemo =
      { label := .ignore, confidence := 0.94,
        reasons := ["non-business-automation-filter"] } := by
  have h1 : (likelyNonHumanSender mDemo || looksHiring mDemo) = true := by decide
  have h2 : hasDirectInquiry mDemo = false := by decide
  have hcls : classifyInbound mDemo =
      { label := .ignore, confidence := 0.94,
        reasons := ["non-business-automation-filter"] } := by
    simp [classifyInbound, h1, h2]
  refine ⟨by decide, by decide, h2, ?_, hcls⟩
  rw [hcls]
  simp [ClassificationResult.mk.injEq]

/-- C6 (amended): for every message that passes the Stage-1 gate, has a
positive sales score and no effective receipt priority: if no direct-inquiry
phrase is present or the sender looked automated/hiring (or came from a
job-network/vendor-system domain), the result is `ignore`/0.90/
`sales-needs-human-direct-inquiry`; otherwise `sales` with confidence
`min (0.62 + 0.07·score) 0.95`. -/
theorem c6_sales_direct_inquiry_amended (m : PollMessage)
    (hgate : ((likelyNonHumanSender m || looksHiring m) && !hasDirectInquiry m) = false)
    (hsales : 0 < salesScore m)
    (hnr : ¬(0 < receiptScore m ∧ salesScore m ≤ receiptScore m)) :
    classifyInbound m =
      if !hasDirectInquiry m || likelyNonHumanSender m || looksHiring m then
        { label := .ignore, confidence := 0.9, reasons := ["sales-needs-human-direct-inquiry"] }
      else
        { label := .sales, confidence := min (0.62 + (salesScore m : ℚ) * 0.07) 0.95,
          reasons := ["matched-sales-signals"] } := by
  simp [classifyInbound, hgate, hnr, hsales]

/-- C6 witness, both branches: the spec's no-reply/"pricing"/"demo" message
is downgraded to `ignore`/0.90 (not `sales`), and a direct consulting
inquiry from a human sender is labeled `sales`. -/
theorem c6_sales_direct_inquiry_witness :
    (((likelyNonHumanSender mNoReply || looksHiring mNoReply) && !hasDirectInquiry mNoReply)
        = false ∧
      0 < salesScore mNoReply ∧
      classifyInbound mNoReply =
        { label := .ignore, confidence := 0.9,
          reasons := ["sales-needs-human-direct-inquiry"] }) ∧
    (((likelyNonHumanSender mJane || looksHiring mJane) && !hasDirectInquiry mJane) = false ∧
      0 < salesScore mJane ∧
      classifyInbound mJane =
        { label := .sales, confidence := min (0.62 + (salesScore mJane : ℚ) * 0.07) 0.95,
          reasons := ["matched-sales-signals"] }) := by
  constructor
  · refine ⟨by decide, by decide, ?_⟩
    have h := c6_sales_direct_inquiry_amended mNoReply (by decide) (by decide) (by decide)
    have hc : (!hasDirectInquiry mNoReply || likelyNonHumanSender mNoReply
        || looksHiring mNoReply) = true := by decide
    rw [h, hc]
    rfl
  · refine ⟨by decide, by decide, ?_⟩
    have h := c6_sales_direct_inquiry_amended mJane (by decide) (by decide) (by decide)
    have hc : (!hasDirectInquiry mJane || likelyNonHumanSender mJane
        || looksHiring mJane) = false := by decide
    rw [h, hc]
    rfl

/-! ## C10: receipt amount/currency are set together (corrected)

The coupling holds except on one family of inputs: when the matched numeric
token's exact value is at least `2^1024 - 2^970`, JavaScript's `parseFloat`
returns `Infinity`, the `Number.isFinite` guard drops the amount, and the
currency alone is kept. -/

theorem scanNumber_head {cs num : List Char} (h : scanNumber cs = some num) :
    ∃ c t, num = c :: t ∧ c.isDigit = true := by
  cases cs with
  | nil => simp [scanNumber] at h
  | cons c rest =>
    simp only [scanNumber] at h
    split at h
    · rename_i hd
      split at h
      · split at h
        · cases h; exact ⟨c, _, rfl, hd⟩
        · cases h; exact ⟨c, _, rfl, hd⟩
      · cases h; exact ⟨c, _, rfl, hd⟩
    · cases h

theorem jsParseFloatQ_scanNumber {cs num : List Char} (h : scanNumber cs = some num) :
    (jsParseFloatQ (stripCommas num)).isSome = true := by
  obtain ⟨c, t, rfl, hd⟩ := scanNumber_head h
  have hc : (c != ',') = true := by
    cases hcc : c == ',' with
    | true =>
      exfalso
      have hcomma : c = ',' := eq_of_beq hcc
      subst hcomma
      simp [Char.isDigit] at hd
    | false => simp [bne, hcc]
  simp [stripCommas, List.filter_cons, hc, jsParseFloatQ, List.takeWhile_cons, hd]

theorem symbolScan_shape {cs : List Char} {sym : Char} {num : List Char}
    (h : symbolScan cs = some (sym, num)) :
    (symToIso sym).isSome = true ∧ ∃ rest, scanNumber rest = some num := by
  induction cs with
  | nil => simp [symbolScan] at h
  | cons c rest ih =>
    simp only [symbolScan] at h
    split at h
    · rename_i hsym
      split at h
      · rename_i num' hn
        cases h
        refine ⟨?_, _, hn⟩
        have hcase : sym = '$' ∨ sym = '€' ∨ sym = '£' := by
          rcases Bool.or_eq_true_iff.mp hsym with h1 | h2
          · rcases Bool.or_eq_true_iff.mp h1 with h3 | h4
            · exact Or.inl (eq_of_beq h3)
            · exact Or.inr (Or.inl (eq_of_beq h4))
          · exact Or.inr (Or.inr (eq_of_beq h2))
        rcases hcase with rfl | rfl | rfl <;> decide
      · exact ih h
    · exact ih h

theorem tryCodeAt_shape {cs : List Char} {code : String} {num : List Char}
    (h : tryCodeAt cs = some (code, num)) :
    code ∈ currencyCodes ∧ ∃ rest, scanNumber rest = some num := by
  have := List.exists_of_findSome?_eq_some h
  obtain ⟨c, hc, hf⟩ := this
  split at hf
  · split at hf
    · rename_i hn
      cases hf
      exact ⟨hc, _, hn⟩
    · cases hf
  · cases hf

theorem codeScanAux_shape {prev : Option Char} {cs : List Char} {code : String}
    {num : List Char} (h : codeScanAux prev cs = some (code, num)) :
    code ∈ currencyCodes ∧ ∃ rest, scanNumber rest = some num := by
  induction cs generalizing prev with
  | nil => simp [codeScanAux] at h
  | cons c rest ih =>
    simp only [codeScanAux] at h
    split at h
    · rename_i hr
      split at hr
      · cases h
        exact tryCodeAt_shape hr
      · cases hr
    · exact ih h

/-- C10 (amended): `parseReceiptInfo` sets amount and currency together,
except that when the matched numeric token's exact value lies beyond the
IEEE-double finite range (`jsFiniteQ` false, i.e. ≥ 2^1024 − 2^970),
`parseFloat` overflows to `Infinity`, the `Number.isFinite` guard drops the
amount and the currency alone is set; when nothing matches, both are
unset. -/
theorem c10_amount_currency_amended (tsE : Int → String) (m : PollMessage) :
    ((parseReceiptInfo tsE m).amount.isSome = true →
      (parseReceiptInfo tsE m).currency.isSome = true) ∧
    ((parseReceiptInfo tsE m).amount = none →
      (parseReceiptInfo tsE m).currency.isSome = true →
      ∃ q, rawAmount m = some q ∧ jsFiniteQ q = false) ∧
    ((parseReceiptInfo tsE m).currency = none → (parseReceiptInfo tsE m).amount = none) := by
  rcases hsym : symbolScan ((m.subject.getD "") ++ " " ++ (m.snippet.getD "")).data with
      _ | ⟨sym, num⟩
  · rcases hcode : codeScan ((m.subject.getD "") ++ " " ++ (m.snippet.getD "")).data with
        _ | ⟨code, num⟩
    · simp only [parseReceiptInfo, rawAmount, hsym, hcode]
      simp
    · obtain ⟨_, rest, hn⟩ := codeScanAux_shape hcode
      have hps := jsParseFloatQ_scanNumber hn
      rcases hq : jsParseFloatQ (stripCommas num) with _ | q
      · rw [hq] at hps; simp at hps
      · simp only [parseReceiptInfo, rawAmount, hsym, hcode, hq]
        refine ⟨fun _ => by simp, fun ha _ => ?_, fun hc => by simp at hc⟩
        refine ⟨q, rfl, ?_⟩
        by_cases hf : jsFiniteQ q = true
        · rw [hf] at ha
          simp at ha
        · simpa using hf
  · obtain ⟨hiso, rest, hn⟩ := symbolScan_shape hsym
    have hps := jsParseFloatQ_scanNumber hn
    rcases hq : jsParseFloatQ (stripCommas num) with _ | q
    · rw [hq] at hps; simp at hps
    · simp only [parseReceiptInfo, rawAmount, hsym, hq]
      refine ⟨fun _ => hiso, fun ha _ => ?_, fun hc => ?_⟩
      · refine ⟨q, rfl, ?_⟩
        by_cases hf : jsFiniteQ q = true
        · rw [hf] at ha
          simp at ha
        · simpa using hf
      · rw [hc] at hiso
        simp at hiso

set_option maxRecDepth 40000 in
/-- Field evaluation of `parseReceiptInfo` at the overflowing receipt: the
scan matches `$` with a 400-digit numeral whose value `10^399` exceeds the
double-overflow threshold, so the amount is dropped while the currency is
kept. -/
theorem mBig_receipt_fields :
    (parseReceiptInfo (fun n => toString n) mBig).currency = some "USD" ∧
    (parseReceiptInfo (fun n => toString n) mBig).amount = none := by
  have hscan : symbolScan ((mBig.subject.getD "") ++ " " ++ (mBig.snippet.getD "")).data
      = some ('$', bigToken) := by decide
  have hq : jsParseFloatQ (stripCommas bigToken) =
      some ((digitsVal bigToken : ℚ) + ((digitsVal [] : ℚ) / (10 : ℚ) ^ (0 : ℕ))) := by
    have hstrip : stripCommas bigToken = bigToken := by decide
    have hint : bigToken.takeWhile Char.isDigit = bigToken := by decide
    have hrest : bigToken.dropWhile Char.isDigit = ([] : List Char) := by decide
    rw [hstrip]
    simp only [jsParseFloatQ, hint, hrest]
    simp [bigToken]
  have hdv : digitsVal bigToken = 10 ^ 399 := by decide
  have hfin : jsFiniteQ ((digitsVal bigToken : ℚ) + ((digitsVal [] : ℚ) / (10 : ℚ) ^ (0 : ℕ)))
      = false := by
    rw [hdv]
    have hval : ((digitsVal ([] : List Char) : ℚ)) = 0 := by norm_num [digitsVal]
    rw [hval]
    simp only [jsFiniteQ]
    rw [decide_eq_false_iff_not]
    push_cast
    norm_num
  constructor
  · simp only [parseReceiptInfo, hscan]
    rfl
  · simp only [parseReceiptInfo, hscan, hq, hfin]
    simp

/-- C10 counterexample: a receipt whose amount token is a 400-digit numeral
(`$100…0`) yields `currency = some "USD"` but `amount = none` — an input for
which exactly one of the two fields is set, contradicting the claim. -/
theorem c10_counterexample :
    (parseReceiptInfo (fun n => toString n) mBig).currency = some "USD" ∧
    (parseReceiptInfo (fun n => toString n) mBig).amount = none :=
  ⟨mBig_receipt_fields.1, mBig_receipt_fields.2⟩

/-- C10 witness: the overflow escape hatch of the amended claim is realized
at `mBig`: its matched raw amount exists and is not double-finite. -/
theorem c10_amount_currency_witness :
    ∃ q, rawAmount mBig = some q ∧ jsFiniteQ q = false :=
  (c10_amount_currency_amended (fun n => toString n) mBig).2.1
    mBig_receipt_fields.2 (by rw [mBig_receipt_fields.1]; rfl)

/-! ## Totality machinery: a well-behaved world never aborts the run -/

theorem contactStep_total {σ : Type} {W : World σ}
    (hc : ∀ p s, ∃ r, W.upsertContact p s = .ok r)
    (cfg : RunCfg) (m : PollMessage) (cls : ClassificationResult)
    (se sn ts : Option String) (s : σ) :
    ∃ r, contactStep W cfg m cls se sn ts s = .ok r := by
  unfold contactStep
  split
  · obtain ⟨⟨cid, s'⟩, hr⟩ := hc _ s
    rw [hr]
    exact ⟨_, rfl⟩
  · exact ⟨_, rfl⟩

theorem activityStep_total {σ : Type} {W : World σ}
    (ha : ∀ p s, ∃ i s', W.upsertActivity p s = .ok (some i, s'))
    (cfg : RunCfg) (m : PollMessage) (cls : ClassificationResult)
    (se sn ts cid : Option String) (s : σ) :
    ∃ aid s', activityStep W cfg m cls se sn ts cid s = .ok (aid, s') := by
  unfold activityStep
  obtain ⟨i, s', hr⟩ := ha _ s
  rw [hr]
  exact ⟨_, _, rfl⟩

theorem salesStep_total {σ : Type} {W : World σ} {cfg : RunCfg}
    (hd : ∀ p s, ∃ i s', W.upsertDraft p s = .ok (some i, s'))
    (hp : ∀ i t u s, ∃ s', W.patchDraftSlack i t u s = .ok s')
    (hs : ∃ o, maybePostSlack cfg.env cfg.fetchR = .ok o)
    (m : PollMessage) (se sn ts : Option String) (sopCues : List String) (aid : String)
    (s : σ) : ∃ r, salesStep W cfg m se sn ts sopCues aid s = .ok r := by
  simp only [salesStep]
  split
  · rename_i e heq
    exfalso
    obtain ⟨i, s1, hr⟩ := hd _ s
    rw [hr] at heq
    cases heq
  · rename_i snd heq
    exfalso
    obtain ⟨i, s1, hr⟩ := hd _ s
    rw [hr] at heq
    simp at heq
  · rename_i did s1 heq
    split
    · rename_i e heq2
      exfalso
      obtain ⟨s2, hr2⟩ := hp did _ cfg.now s1
      rw [hr2] at heq2
      cases heq2
    · rename_i s2 heq2
      obtain ⟨o, hr3⟩ := hs
      rw [hr3]
      exact ⟨_, rfl⟩

theorem receiptStep_total {σ : Type} {W : World σ}
    (ha : ∀ p s, ∃ s', W.upsertAccounting p s = .ok s')
    (cfg : RunCfg) (m : PollMessage) (aid : String) (s : σ) :
    ∃ r, receiptStep W cfg m aid s = .ok r := by
  simp only [receiptStep]
  obtain ⟨s', hr⟩ := ha _ s
  rw [hr]
  exact ⟨_, rfl⟩

theorem processOneMessage_total {σ : Type} {W : World σ} {cfg : RunCfg}
    (hT : WorldTotal W cfg.env cfg.fetchR) (sopCues : List String)
    (st : LoopState σ) (m : PollMessage) :
    ∃ st', processOneMessage W cfg sopCues st m = .ok st' := by
  obtain ⟨⟨cid, s1⟩, hc⟩ := contactStep_total hT.contact cfg m (classifyInbound m)
    (extractEmailAddress m.from_) (extractDisplayName m.from_)
    (messageTs cfg.tsOfEpoch m) st.st
  obtain ⟨aid, s2, ha⟩ := activityStep_total hT.activity cfg m (classifyInbound m)
    (extractEmailAddress m.from_) (extractDisplayName m.from_)
    (messageTs cfg.tsOfEpoch m) cid s1
  simp only [processOneMessage, hc, ha]
  split
  · rename_i e heq
    exfalso
    split at heq
    · obtain ⟨⟨entry, s3⟩, hsal⟩ := salesStep_total hT.draft hT.patchDraft hT.slack m
        (extractEmailAddress m.from_) (extractDisplayName m.from_)
        (messageTs cfg.tsOfEpoch m) sopCues aid s2
      rw [hsal] at heq
      cases heq
    · cases heq
  · rename_i st2 heq
    split
    · obtain ⟨⟨entry2, s4⟩, hrc⟩ := receiptStep_total hT.accounting cfg m aid st2.st
      rw [hrc]
      exact ⟨_, rfl⟩
    · exact ⟨_, rfl⟩

theorem processMessages_total {σ : Type} {W : World σ} {cfg : RunCfg}
    (hT : WorldTotal W cfg.env cfg.fetchR) (sopCues : List String)
    (msgs : List PollMessage) : ∀ st : LoopState σ,
    ∃ st', processMessages W cfg sopCues msgs st = .ok st' := by
  induction msgs with
  | nil => exact fun st => ⟨st, rfl⟩
  | cons m rest ih =>
    intro st
    obtain ⟨st1, h1⟩ := processOneMessage_total hT sopCues st m
    obtain ⟨st2, h2⟩ := ih st1
    exact ⟨st2, by simp only [processMessages, h1, h2]⟩

theorem pollStateLoop_total {σ : Type} {W : World σ} {cfg : RunCfg}
    (hps : ∀ p s, ∃ s', W.upsertPollState p s = .ok s')
    (maxTs : List (String × String)) (accounts : List String) :
    ∀ (acc : List PollStateUpdate) (s : σ),
    ∃ us s', pollStateLoop W cfg maxTs accounts acc s = .ok (us, s') := by
  induction accounts with
  | nil => exact fun acc s => ⟨acc, s, rfl⟩
  | cons a rest ih =>
    intro acc s
    simp only [pollStateLoop]
    split
    · rename_i e heq
      exfalso
      obtain ⟨s1, h1⟩ := hps _ s
      rw [h1] at heq
      cases heq
    · rename_i s1 heq
      exact ih _ s1

/-- With a world none of whose persistence calls throws (and whose
activity/draft upserts return usable ids) and a Slack send that does not
throw, the run always finalizes. -/
theorem run_total {σ : Type} {W : World σ} {cfg : RunCfg}
    (hT : WorldTotal W cfg.env cfg.fetchR) (poll : PollFile) (s0 : σ) :
    ∃ r, processRun W cfg poll s0 = .ok r := by
  simp only [processRun]
  split
  · rename_i e heq
    exfalso
    obtain ⟨s1, h1⟩ := hT.jobrun _ s0
    rw [h1] at heq
    cases heq
  · rename_i s1 heq
    split
    · rename_i e heq2
      exfalso
      obtain ⟨st, h2⟩ := processMessages_total hT (pickSopCues cfg.sop) poll.messages _
      rw [h2] at heq2
      cases heq2
    · rename_i st heq2
      split
      · rename_i e heq3
        exfalso
        obtain ⟨us, s2, h3⟩ :=
          pollStateLoop_total hT.pollstate st.maxTs (accountList poll) [] st.st
        rw [h3] at heq3
        cases heq3
      · rename_i us s2 heq3
        split
        · rename_i e heq4
          exfalso
          obtain ⟨s3, h4⟩ := hT.patchFinal _ _ s2
          rw [h4] at heq4
          cases heq4
        · exact ⟨_, rfl⟩

theorem dbWorld_total (env : SlackEnv) (fetchR : Except String SlackHttpResp)
    (hs : ∃ o, maybePostSlack env fetchR = .ok o) : WorldTotal dbWorld env fetchR where
  jobrun := fun _ _ => ⟨_, rfl⟩
  contact := fun p s => by
    show ∃ r, dbUpsertContact p s = .ok r
    unfold dbUpsertContact
    split
    · exact ⟨_, rfl⟩
    · exact ⟨_, rfl⟩
  activity := fun p s => by
    show ∃ i s', dbUpsertActivity p s = .ok (some i, s')
    unfold dbUpsertActivity
    split
    · exact ⟨_, _, rfl⟩
    · exact ⟨_, _, rfl⟩
  draft := fun p s => by
    show ∃ i s', dbUpsertDraft p s = .ok (some i, s')
    unfold dbUpsertDraft
    split
    · exact ⟨_, _, rfl⟩
    · exact ⟨_, _, rfl⟩
  patchDraft := fun _ _ _ _ => ⟨_, rfl⟩
  accounting := fun p s => by
    show ∃ s', dbUpsertAccounting p s = .ok s'
    unfold dbUpsertAccounting
    split
    · exact ⟨_, rfl⟩
    · exact ⟨_, rfl⟩
  pollstate := fun _ _ => ⟨_, rfl⟩
  patchFinal := fun _ _ _ => ⟨_, rfl⟩
  slack := hs

theorem noContactIdWorld_total (env : SlackEnv) (fetchR : Except String SlackHttpResp)
    (hs : ∃ o, maybePostSlack env fetchR = .ok o) :
    WorldTotal noContactIdWorld env fetchR where
  jobrun := fun _ _ => ⟨_, rfl⟩
  contact := fun _ _ => ⟨_, rfl⟩
  activity := fun _ _ => ⟨_, _, rfl⟩
  draft := fun _ _ => ⟨_, _, rfl⟩
  patchDraft := fun _ _ _ _ => ⟨_, rfl⟩
  accounting := fun _ _ => ⟨_, rfl⟩
  pollstate := fun _ _ => ⟨_, rfl⟩
  patchFinal := fun _ _ _ => ⟨_, rfl⟩
  slack := hs

/-! ## C7: terminal run status -/

/-- C7: for every run that reaches finalization (over any persistence
world), the terminal status is `partial_failure` iff the input batch carried
the upstream partial-failure flag or at least one sales draft's notification
send was not posted, and `ok` otherwise. -/
theorem c7_terminal_status {σ : Type} (W : World σ) (cfg : RunCfg) (poll : PollFile)
    (s0 : σ) (res : ProcessResult) (s' : σ)
    (h : processRun W cfg poll s0 = .ok (res, s')) :
    (res.status = "partial_failure" ↔
      poll.pf = some true ∨ ∃ d ∈ res.sales_drafts, d.slack_posted = false) ∧
    (res.status = "partial_failure" ∨ res.status = "ok") := by
  simp only [processRun] at h
  split at h
  · cases h
  · split at h
    · cases h
    · rename_i st heq2
      split at h
      · cases h
      · split at h
        · cases h
        · cases h
          cases hCb : ((poll.pf == some true)
              || st.salesDrafts.any (fun d => !d.slack_posted)) with
          | true =>
            have hR : poll.pf = some true ∨ ∃ d ∈ st.salesDrafts, d.slack_posted = false := by
              simpa only [List.any_eq_true, Bool.or_eq_true, beq_iff_eq,
                Bool.not_eq_true'] using hCb
            exact ⟨⟨fun _ => hR, fun _ => rfl⟩, Or.inl rfl⟩
          | false =>
            have hR : ¬(poll.pf = some true ∨
                ∃ d ∈ st.salesDrafts, d.slack_posted = false) := by
              intro hr
              have hcontra : ((poll.pf == some true)
                  || st.salesDrafts.any (fun d => !d.slack_posted)) = true := by
                simpa only [List.any_eq_true, Bool.or_eq_true, beq_iff_eq,
                  Bool.not_eq_true'] using hr
              rw [hCb] at hcontra
              cases hcontra
            exact ⟨⟨fun hbad => absurd hbad
                (by decide : ¬(("ok" : String) = "partial_failure")),
              fun hr => absurd hr hR⟩, Or.inr rfl⟩

/-- C7 witness: a batch flagged partial-failure upstream whose single
message is a receipt (all persistence steps succeed, no drafts) still yields
terminal status `partial_failure`. -/
theorem c7_terminal_status_witness :
    ∃ res s', processRun dbWorld cfg0 pollFlag ({} : Store) = .ok (res, s') ∧
      res.status = "partial_failure" ∧
      (res.status = "partial_failure" ↔
        pollFlag.pf = some true ∨ ∃ d ∈ res.sales_drafts, d.slack_posted = false) := by
  refine ⟨((processRun dbWorld cfg0 pollFlag ({} : Store)).toOption.getD dfltPR).1,
          ((processRun dbWorld cfg0 pollFlag ({} : Store)).toOption.getD dfltPR).2,
          ?_, ?_, ?_⟩
  · rfl
  · decide
  · exact (c7_terminal_status dbWorld cfg0 pollFlag ({} : Store) _ _ (by rfl)).1

/-! ## C3: missing row ids after required upserts (corrected)

A missing Activity or Draft id does abort the run, but a missing Contact id
does not: the script computes
`contactId = typeof contact.id === "string" ? contact.id : undefined`
with no check, stores the activity with `contact_id: undefined`, and keeps
going. -/

/-- C3 counterexample: a world whose contact upserts return a row without a
usable id.  On a two-message batch whose first message is sales-labeled with
a resolvable sender, the run does not abort — it processes both messages —
even though the claim says a missing Contact id aborts just as a missing
Activity or Draft id does. -/
theorem c3_counterexample :
    (classifyInbound mJane).label = Classification.sales ∧
    strT (extractEmailAddress mJane.from_) = true ∧
    noContactIdWorld.upsertContact
      { email := "jane@acmeco.com", display_name := some "Jane Doe", last_seen_at := "100",
        source_account_email := "me@x.com", updated_at := "900" } () = .ok (none, ()) ∧
    (processRun noContactIdWorld cfg0 pollBoth ()).toOption.map
      (fun p => p.1.totals.processed_messages) = some 2 := by
  refine ⟨by decide, by decide, rfl, by decide⟩

/-- C3 (amended): a required upsert whose returned row has no usable string
id aborts the whole run for Activities and Drafts (with the script's exact
error messages, and without touching later messages), but a missing Contact
id is tolerated: the run continues and still finalizes. -/
theorem c3_missing_id_amended (cfg : RunCfg) (poll : PollFile) (m : PollMessage)
    (rest : List PollMessage) (hmsgs : poll.messages = m :: rest)
    (hok : ∃ o, maybePostSlack cfg.env cfg.fetchR = .ok o) :
    processRun noActivityIdWorld cfg poll () =
      .error ("Missing activity id after upsert for source_key=" ++ m.source_key) ∧
    ((classifyInbound m).label = Classification.sales →
      processRun noDraftIdWorld cfg poll () =
        .error ("Missing draft id after upsert for activity_id=aid")) ∧
    ∃ r, processRun noContactIdWorld cfg poll () = .ok r := by
  refine ⟨?_, ?_, run_total (noContactIdWorld_total cfg.env cfg.fetchR hok) poll ()⟩
  · have hone : ∀ st : LoopState Unit,
        processOneMessage noActivityIdWorld cfg (pickSopCues cfg.sop) st m =
          .error ("Missing activity id after upsert for source_key=" ++ m.source_key) := by
      intro st
      have hc : ∃ cid, contactStep noActivityIdWorld cfg m (classifyInbound m)
          (extractEmailAddress m.from_) (extractDisplayName m.from_)
          (messageTs cfg.tsOfEpoch m) st.st = .ok (cid, ()) := by
        unfold contactStep
        split
        · exact ⟨some "cid", rfl⟩
        · exact ⟨none, rfl⟩
      obtain ⟨cid, hc⟩ := hc
      simp only [processOneMessage, hc]
      rfl
    simp only [processRun, hmsgs, processMessages, hone]
    rfl
  · intro hsales
    have hone : ∀ st : LoopState Unit,
        processOneMessage noDraftIdWorld cfg (pickSopCues cfg.sop) st m =
          .error ("Missing draft id after upsert for activity_id=aid") := by
      intro st
      have hc : ∃ cid, contactStep noDraftIdWorld cfg m (classifyInbound m)
          (extractEmailAddress m.from_) (extractDisplayName m.from_)
          (messageTs cfg.tsOfEpoch m) st.st = .ok (cid, ()) := by
        unfold contactStep
        split
        · exact ⟨some "cid", rfl⟩
        · exact ⟨none, rfl⟩
      obtain ⟨cid, hc⟩ := hc
      have hlab : ((classifyInbound m).label == Classification.sales) = true := by
        rw [hsales]
        rfl
      simp only [processOneMessage, hc, activityStep, salesStep, hlab]
      rfl
    simp only [processRun, hmsgs, processMessages, hone]
    rfl

/-- C3 witness: instantiation of the amended claim at the two-message batch
whose head is the sales message `mJane`. -/
theorem c3_missing_id_witness :
    processRun noActivityIdWorld cfg0 pollBoth () =
      .error ("Missing activity id after upsert for source_key=" ++ mJane.source_key) ∧
    processRun noDraftIdWorld cfg0 pollBoth () =
      .error ("Missing draft id after upsert for activity_id=aid") ∧
    ∃ r, processRun noContactIdWorld cfg0 pollBoth () = .ok r := by
  obtain ⟨h1, h2, h3⟩ := c3_missing_id_amended cfg0 pollBoth mJane [mBill] rfl ⟨_, rfl⟩
  exact ⟨h1, h2 (by decide), h3⟩

/-! ## C4: notification failure handling (corrected)

Missing credentials and failed HTTP responses are captured as non-fatal
per-draft outcomes, but a *thrown* transport error (a rejected `fetch` /
`json()` promise) propagates out of `maybePostSlack` — the script has no
`try`/`catch` around the call — and aborts the run. -/

/-- C4 counterexample: with Slack credentials present and the HTTP call
throwing (`fetch` rejects), a run over a single sales message aborts with
that very error instead of recording a non-fatal per-draft outcome. -/
theorem c4_counterexample :
    (classifyInbound mJane).label = Classification.sales ∧
    processRun dbWorld { cfg0 with env := envFull, fetchR := .error "ECONNREFUSED" }
      pollJane ({} : Store) = .error "ECONNREFUSED" := by
  exact ⟨by decide, by rfl⟩

/-- C4 (amended): (a) missing credentials are captured as a non-fatal
per-draft outcome; (b) a delivered-but-failed HTTP response (non-OK status
or `ok: false` body) is captured as a non-fatal per-draft outcome carrying
an error string; (c) an exception thrown by the HTTP call itself propagates
(and, by (d) combined with `c4_counterexample`, aborts the run); (d) when
the send does not throw, the run over the honest store always finalizes. -/
theorem c4_slack_failure_amended (env : SlackEnv) (fetchR : Except String SlackHttpResp)
    (resp : SlackHttpResp) (e : String) (cfg : RunCfg) (poll : PollFile) (s0 : Store) :
    (((slackTokenOf env).isNone = true ∨ (slackChannelOf env).isNone = true) →
      maybePostSlack env fetchR =
        .ok { posted := false,
              error := some "CRM_SLACK_CHANNEL_ID or SLACK_BOT_TOKEN missing" }) ∧
    (((slackTokenOf env).isSome = true ∧ (slackChannelOf env).isSome = true ∧
        ¬(resp.ok = true ∧ resp.dataOk = true)) →
      maybePostSlack env (.ok resp) =
        .ok { posted := false,
              error := some (resp.dataError.getD ("slack-error-" ++ toString resp.status)) }) ∧
    (((slackTokenOf env).isSome = true ∧ (slackChannelOf env).isSome = true) →
      maybePostSlack env (.error e) = .error e) ∧
    ((∃ o, maybePostSlack cfg.env cfg.fetchR = .ok o) →
      ∃ r, processRun dbWorld cfg poll s0 = .ok r) := by
  refine ⟨?_, ?_, ?_, ?_⟩
  · intro hmiss
    unfold maybePostSlack
    have : ((slackTokenOf env).isNone || (slackChannelOf env).isNone) = true := by
      rcases hmiss with h | h
      · simp [h]
      · simp [h]
    simp [this]
  · rintro ⟨ht, hc, hfail⟩
    unfold maybePostSlack
    have hcond : ((slackTokenOf env).isNone || (slackChannelOf env).isNone) = false := by
      rcases hToken : slackTokenOf env with _ | t
      · rw [hToken] at ht
        cases ht
      · rcases hChan : slackChannelOf env with _ | c
        · rw [hChan] at hc
          cases hc
        · rfl
    simp only [hcond, Bool.false_eq_true, if_false]
    have hok2 : (resp.ok && resp.dataOk) = false := by
      cases hro : resp.ok with
      | false => rfl
      | true =>
        cases hrd : resp.dataOk with
        | false => rfl
        | true => exact absurd ⟨hro, hrd⟩ hfail
    simp [hok2]
  · rintro ⟨ht, hc⟩
    unfold maybePostSlack
    have hcond : ((slackTokenOf env).isNone || (slackChannelOf env).isNone) = false := by
      rcases hToken : slackTokenOf env with _ | t
      · rw [hToken] at ht
        cases ht
      · rcases hChan : slackChannelOf env with _ | c
        · rw [hChan] at hc
          cases hc
        · rfl
    simp [hcond]
  · intro hok
    exact run_total (dbWorld_total cfg.env cfg.fetchR hok) poll s0

/-- C4 witness: the three capture/propagate behaviours at concrete
environments, plus a finalized run whose only sales draft records the failed
send non-fatally. -/
theorem c4_slack_failure_witness :
    maybePostSlack envNone (.ok respOk) =
      .ok { posted := false,
            error := some "CRM_SLACK_CHANNEL_ID or SLACK_BOT_TOKEN missing" } ∧
    maybePostSlack envFull (.ok respBad) =
      .ok { posted := false, error := some "channel_not_found" } ∧
    maybePostSlack envFull (.error "ECONNREFUSED") = .error "ECONNREFUSED" ∧
    ∃ r, processRun dbWorld { cfg0 with env := envFull, fetchR := .ok respBad }
      pollJane ({} : Store) = .ok r := by
  refine ⟨?_, ?_, ?_, ?_⟩
  · exact (c4_slack_failure_amended envNone (.ok respOk) respOk "" cfg0 pollJane {}).1
      (by decide)
  · exact (c4_slack_failure_amended envFull (.ok respBad) respBad "" cfg0 pollJane {}).2.1
      ⟨by decide, by decide, by decide⟩
  · exact (c4_slack_failure_amended envFull (.error "x") respOk "ECONNREFUSED" cfg0
      pollJane {}).2.2.1 ⟨by decide, by decide⟩
  · exact (c4_slack_failure_amended envFull (.ok respBad) respBad ""
      { cfg0 with env := envFull, fetchR := .ok respBad } pollJane {}).2.2.2 ⟨_, by rfl⟩

/-! ## Generic lemmas about the keyed row store -/

theorem lookupRow_cons {ρ : Type} (keyOf : ρ → String) (k : String) (r : ρ) (rs : List ρ) :
    lookupRow keyOf k (r :: rs) =
      if keyOf r == k then some r else lookupRow keyOf k rs := by
  simp only [lookupRow, List.find?]
  cases keyOf r == k <;> simp

theorem upsertRows_lookup_self {ρ : Type} (keyOf : ρ → String) (k : String) (ins : ρ)
    (merge : ρ → ρ) (l : List ρ) (hins : keyOf ins = k)
    (hmerge : ∀ r, keyOf (merge r) = k) :
    lookupRow keyOf k (upsertRows keyOf k ins merge l) =
      some (match lookupRow keyOf k l with
            | some r => merge r
            | none => ins) := by
  induction l with
  | nil =>
    simp [upsertRows, lookupRow, List.find?, hins]
  | cons r rs ih =>
    simp only [upsertRows]
    cases hk : keyOf r == k with
    | true =>
      rw [if_pos rfl]
      rw [lookupRow_cons, lookupRow_cons]
      simp [hmerge r, hk]
    | false =>
      rw [if_neg (by simp [hk])]
      rw [lookupRow_cons, lookupRow_cons, hk]
      simp only [Bool.false_eq_true, if_false]
      exact ih

theorem upsertRows_lookup_other {ρ : Type} (keyOf : ρ → String) (k k' : String) (ins : ρ)
    (merge : ρ → ρ) (l : List ρ) (hne : k' ≠ k) (hins : keyOf ins = k)
    (hmerge : ∀ r, keyOf (merge r) = k) :
    lookupRow keyOf k' (upsertRows keyOf k ins merge l) = lookupRow keyOf k' l := by
  induction l with
  | nil =>
    simp only [upsertRows, lookupRow, List.find?]
    have : (keyOf ins == k') = false := by
      rw [hins]
      exact beq_false_of_ne (Ne.symm hne)
    simp [this]
  | cons r rs ih =>
    simp only [upsertRows]
    cases hk : keyOf r == k with
    | true =>
      rw [if_pos rfl]
      rw [lookupRow_cons, lookupRow_cons]
      have h1 : (keyOf (merge r) == k') = false := by
        rw [hmerge r]
        exact beq_false_of_ne (Ne.symm hne)
      have h2 : (keyOf r == k') = false := by
        rw [eq_of_beq hk]
        exact beq_false_of_ne (Ne.symm hne)
      simp [h1, h2]
    | false =>
      rw [if_neg (by simp [hk])]
      rw [lookupRow_cons, lookupRow_cons]
      cases hk' : keyOf r == k' with
      | true => simp
      | false => simp [ih]

theorem upsertRows_length_found {ρ : Type} (keyOf : ρ → String) (k : String) (ins : ρ)
    (merge : ρ → ρ) (l : List ρ) (h : (lookupRow keyOf k l).isSome = true) :
    (upsertRows keyOf k ins merge l).length = l.length := by
  induction l with
  | nil => simp [lookupRow] at h
  | cons r rs ih =>
    rw [lookupRow_cons] at h
    simp only [upsertRows]
    cases hk : keyOf r == k with
    | true => rw [if_pos rfl]; rfl
    | false =>
      rw [if_neg (by simp [hk])]
      rw [hk] at h
      simp only [Bool.false_eq_true, if_false] at h
      simp [ih h]

theorem upsertRows_length_new {ρ : Type} (keyOf : ρ → String) (k : String) (ins : ρ)
    (merge : ρ → ρ) (l : List ρ) (h : lookupRow keyOf k l = none) :
    (upsertRows keyOf k ins merge l).length = l.length + 1 := by
  induction l with
  | nil => simp [upsertRows]
  | cons r rs ih =>
    rw [lookupRow_cons] at h
    simp only [upsertRows]
    cases hk : keyOf r == k with
    | true =>
      rw [hk] at h
      simp at h
    | false =>
      rw [if_neg (by simp [hk])]
      rw [hk] at h
      simp only [Bool.false_eq_true, if_false] at h
      simp [ih h]

/-! ## Per-operation store effects of `dbWorld` -/

theorem upsertRows_lookup_found {ρ : Type} (keyOf : ρ → String) (k : String) (ins : ρ)
    (merge : ρ → ρ) (l : List ρ) (r0 : ρ) (hr : lookupRow keyOf k l = some r0)
    (hins : keyOf ins = k) (hmerge : ∀ r, keyOf (merge r) = k) :
    lookupRow keyOf k (upsertRows keyOf k ins merge l) = some (merge r0) := by
  rw [upsertRows_lookup_self keyOf k ins merge l hins hmerge, hr]

theorem upsertRows_lookup_notfound {ρ : Type} (keyOf : ρ → String) (k : String) (ins : ρ)
    (merge : ρ → ρ) (l : List ρ) (hr : lookupRow keyOf k l = none)
    (hins : keyOf ins = k) (hmerge : ∀ r, keyOf (merge r) = k) :
    lookupRow keyOf k (upsertRows keyOf k ins merge l) = some ins := by
  rw [upsertRows_lookup_self keyOf k ins merge l hins hmerge, hr]

theorem dbUpsertContact_spec {p : ContactPayload} {s : Store} {cid : Option String}
    {s' : Store} (h : dbUpsertContact p s = .ok (cid, s')) :
    s'.activities = s.activities ∧ s'.drafts = s.drafts ∧ s'.accounting = s.accounting ∧
    s'.jobRuns = s.jobRuns ∧ s'.pollState = s.pollState ∧
    (∃ rid, cid = some rid ∧ s'.contactRow p.email = some ⟨rid, p⟩) ∧
    (∀ k, k ≠ p.email → s'.contactRow k = s.contactRow k) := by
  unfold dbUpsertContact at h
  split at h
  · rename_i r0 hr
    cases h
    refine ⟨rfl, rfl, rfl, rfl, rfl, ⟨r0.id, rfl, ?_⟩, fun k hk => ?_⟩
    · exact upsertRows_lookup_found (fun r => r.data.email) p.email ⟨r0.id, p⟩
        (fun old => ⟨old.id, p⟩) s.contacts r0 hr rfl (fun _ => rfl)
    · exact upsertRows_lookup_other (fun r => r.data.email) p.email k ⟨r0.id, p⟩
        (fun old => ⟨old.id, p⟩) s.contacts hk rfl (fun _ => rfl)
  · rename_i hr
    cases h
    refine ⟨rfl, rfl, rfl, rfl, rfl, ⟨genId s.nextId, rfl, ?_⟩, fun k hk => ?_⟩
    · exact upsertRows_lookup_notfound (fun r => r.data.email) p.email
        ⟨genId s.nextId, p⟩ (fun old => ⟨old.id, p⟩) s.contacts hr rfl (fun _ => rfl)
    · exact upsertRows_lookup_other (fun r => r.data.email) p.email k
        ⟨genId s.nextId, p⟩ (fun old => ⟨old.id, p⟩) s.contacts hk rfl (fun _ => rfl)

theorem dbUpsertActivity_spec {p : ActivityPayload} {s : Store} {aid : Option String}
    {s' : Store} (h : dbUpsertActivity p s = .ok (aid, s')) :
    s'.contacts = s.contacts ∧ s'.drafts = s.drafts ∧ s'.accounting = s.accounting ∧
    s'.jobRuns = s.jobRuns ∧ s'.pollState = s.pollState ∧
    (∃ rid, aid = some rid ∧ s'.actRow p.source_key = some ⟨rid, p⟩ ∧
      (∀ r, s.actRow p.source_key = some r → rid = r.id)) ∧
    (∀ k, k ≠ p.source_key → s'.actRow k = s.actRow k) ∧
    ((s.actRow p.source_key).isSome = true → s'.activities.length = s.activities.length) ∧
    (s.actRow p.source_key = none → s'.activities.length = s.activities.length + 1) := by
  unfold dbUpsertActivity at h
  split at h
  · rename_i r0 hr
    cases h
    refine ⟨rfl, rfl, rfl, rfl, rfl, ⟨r0.id, rfl, ?_, fun r1 hr1 => ?_⟩,
      fun k hk => ?_, fun _ => ?_, fun hnone => ?_⟩
    · exact upsertRows_lookup_found (fun r => r.data.source_key) p.source_key ⟨r0.id, p⟩
        (fun old => ⟨old.id, p⟩) s.activities r0 hr rfl (fun _ => rfl)
    · rw [show Store.actRow s p.source_key = some r0 from hr] at hr1
      cases hr1
      rfl
    · exact upsertRows_lookup_other (fun r => r.data.source_key) p.source_key k
        ⟨r0.id, p⟩ (fun old => ⟨old.id, p⟩) s.activities hk rfl (fun _ => rfl)
    · exact upsertRows_length_found (fun r => r.data.source_key) p.source_key ⟨r0.id, p⟩
        (fun old => ⟨old.id, p⟩) s.activities (by rw [hr]; rfl)
    · rw [show Store.actRow s p.source_key = some r0 from hr] at hnone
      cases hnone
  · rename_i hr
    cases h
    refine ⟨rfl, rfl, rfl, rfl, rfl, ⟨genId s.nextId, rfl, ?_, fun r1 hr1 => ?_⟩,
      fun k hk => ?_, fun hsome => ?_, fun _ => ?_⟩
    · exact upsertRows_lookup_notfound (fun r => r.data.source_key) p.source_key
        ⟨genId s.nextId, p⟩ (fun old => ⟨old.id, p⟩) s.activities hr rfl (fun _ => rfl)
    · rw [show Store.actRow s p.source_key = none from hr] at hr1
      cases hr1
    · exact upsertRows_lookup_other (fun r => r.data.source_key) p.source_key k
        ⟨genId s.nextId, p⟩ (fun old => ⟨old.id, p⟩) s.activities hk rfl (fun _ => rfl)
    · rw [show Store.actRow s p.source_key = none from hr] at hsome
      cases hsome
    · exact upsertRows_length_new (fun r => r.data.source_key) p.source_key
        ⟨genId s.nextId, p⟩ (fun old => ⟨old.id, p⟩) s.activities hr

theorem dbUpsertDraft_spec {p : DraftPayload} {s : Store} {did : Option String}
    {s' : Store} (h : dbUpsertDraft p s = .ok (did, s')) :
    s'.contacts = s.contacts ∧ s'.activities = s.activities ∧
    s'.accounting = s.accounting ∧ s'.jobRuns = s.jobRuns ∧ s'.pollState = s.pollState ∧
    (∃ rid, did = some rid ∧ (s'.draftRow p.activity_id).isSome = true) ∧
    (∀ k, k ≠ p.activity_id → s'.draftRow k = s.draftRow k) ∧
    ((s.draftRow p.activity_id).isSome = true → s'.drafts.length = s.drafts.length) ∧
    (s.draftRow p.activity_id = none → s'.drafts.length = s.drafts.length + 1) := by
  unfold dbUpsertDraft at h
  split at h
  · rename_i r0 hr
    cases h
    refine ⟨rfl, rfl, rfl, rfl, rfl, ⟨r0.id, rfl, ?_⟩, fun k hk => ?_, fun _ => ?_,
      fun hnone => ?_⟩
    · simp only [Store.draftRow]
      rw [upsertRows_lookup_found draftKey p.activity_id
        { id := r0.id, data := p, slack_summary := r0.slack_summary,
          patched_at := r0.patched_at }
        (fun old => { old with data := p }) s.drafts r0 hr rfl (fun _ => rfl)]
      rfl
    · exact upsertRows_lookup_other draftKey p.activity_id k
        { id := r0.id, data := p, slack_summary := r0.slack_summary,
          patched_at := r0.patched_at }
        (fun old => { old with data := p }) s.drafts hk rfl (fun _ => rfl)
    · exact upsertRows_length_found draftKey p.activity_id
        { id := r0.id, data := p, slack_summary := r0.slack_summary,
          patched_at := r0.patched_at }
        (fun old => { old with data := p }) s.drafts (by rw [hr]; rfl)
    · rw [show Store.draftRow s p.activity_id = some r0 from hr] at hnone
      cases hnone
  · rename_i hr
    cases h
    refine ⟨rfl, rfl, rfl, rfl, rfl, ⟨genId s.nextId, rfl, ?_⟩, fun k hk => ?_,
      fun hsome => ?_, fun _ => ?_⟩
    · simp only [Store.draftRow]
      rw [upsertRows_lookup_notfound draftKey p.activity_id
        { id := genId s.nextId, data := p }
        (fun old => { old with data := p }) s.drafts hr rfl (fun _ => rfl)]
      rfl
    · exact upsertRows_lookup_other draftKey p.activity_id k
        { id := genId s.nextId, data := p }
        (fun old => { old with data := p }) s.drafts hk rfl (fun _ => rfl)
    · rw [show Store.draftRow s p.activity_id = none from hr] at hsome
      cases hsome
    · exact upsertRows_length_new draftKey p.activity_id
        { id := genId s.nextId, data := p }
        (fun old => { old with data := p }) s.drafts hr

theorem find?_map_key_preserving {ρ : Type} (keyOf : ρ → String) (f : ρ → ρ)
    (hf : ∀ r, keyOf (f r) = keyOf r) (k : String) (l : List ρ) :
    (lookupRow keyOf k (l.map f)).isSome = (lookupRow keyOf k l).isSome := by
  induction l with
  | nil => simp [lookupRow]
  | cons r rs ih =>
    rw [List.map_cons, lookupRow_cons, lookupRow_cons, hf r]
    cases keyOf r == k with
    | true => simp
    | false => simpa using ih

theorem dbPatchDraftSlack_spec {did text upd : String} {s s' : Store}
    (h : dbPatchDraftSlack did text upd s = .ok s') :
    s'.contacts = s.contacts ∧ s'.activities = s.activities ∧
    s'.accounting = s.accounting ∧ s'.jobRuns = s.jobRuns ∧ s'.pollState = s.pollState ∧
    s'.drafts.length = s.drafts.length ∧
    (∀ k, (s'.draftRow k).isSome = (s.draftRow k).isSome) := by
  unfold dbPatchDraftSlack at h
  cases h
  refine ⟨rfl, rfl, rfl, rfl, rfl, by simp, fun k => ?_⟩
  refine find?_map_key_preserving draftKey _ (fun r => ?_) k s.drafts
  by_cases hid : (r.id == did) = true <;> simp [draftKey, hid]

theorem dbUpsertAccounting_spec {p : AccountingPayload} {s s' : Store}
    (h : dbUpsertAccounting p s = .ok s') :
    s'.contacts = s.contacts ∧ s'.activities = s.activities ∧ s'.drafts = s.drafts ∧
    s'.jobRuns = s.jobRuns ∧ s'.pollState = s.pollState ∧
    (s'.acctRow p.source_key).isSome = true ∧
    (∀ k, k ≠ p.source_key → s'.acctRow k = s.acctRow k) ∧
    ((s.acctRow p.source_key).isSome = true →
      s'.accounting.length = s.accounting.length) ∧
    (s.acctRow p.source_key = none → s'.accounting.length = s.accounting.length + 1) := by
  unfold dbUpsertAccounting at h
  split at h
  · rename_i r0 hr
    cases h
    refine ⟨rfl, rfl, rfl, rfl, rfl, ?_, fun k hk => ?_, fun _ => ?_, fun hnone => ?_⟩
    · simp only [Store.acctRow]
      rw [upsertRows_lookup_found (fun r => r.data.source_key) p.source_key ⟨r0.id, p⟩
        (fun old => ⟨old.id, p⟩) s.accounting r0 hr rfl (fun _ => rfl)]
      rfl
    · exact upsertRows_lookup_other (fun r => r.data.source_key) p.source_key k
        ⟨r0.id, p⟩ (fun old => ⟨old.id, p⟩) s.accounting hk rfl (fun _ => rfl)
    · exact upsertRows_length_found (fun r => r.data.source_key) p.source_key ⟨r0.id, p⟩
        (fun old => ⟨old.id, p⟩) s.accounting (by rw [hr]; rfl)
    · rw [show Store.acctRow s p.source_key = some r0 from hr] at hnone
      cases hnone
  · rename_i hr
    cases h
    refine ⟨rfl, rfl, rfl, rfl, rfl, ?_, fun k hk => ?_, fun hsome => ?_, fun _ => ?_⟩
    · simp only [Store.acctRow]
      rw [upsertRows_lookup_notfound (fun r => r.data.source_key) p.source_key
        ⟨genId s.nextId, p⟩ (fun old => ⟨old.id, p⟩) s.accounting hr rfl (fun _ => rfl)]
      rfl
    · exact upsertRows_lookup_other (fun r => r.data.source_key) p.source_key k
        ⟨genId s.nextId, p⟩ (fun old => ⟨old.id, p⟩) s.accounting hk rfl (fun _ => rfl)
    · rw [show Store.acctRow s p.source_key = none from hr] at hsome
      cases hsome
    · exact upsertRows_length_new (fun r => r.data.source_key) p.source_key
        ⟨genId s.nextId, p⟩ (fun old => ⟨old.id, p⟩) s.accounting hr

theorem dbUpsertJobRun_spec {p : JobRunStart} {s s' : Store}
    (h : dbUpsertJobRun p s = .ok s') :
    s'.contacts = s.contacts ∧ s'.activities = s.activities ∧ s'.drafts = s.drafts ∧
    s'.accounting = s.accounting := by
  cases h
  exact ⟨rfl, rfl, rfl, rfl⟩

theorem dbUpsertPollState_spec {p : PollStatePayload} {s s' : Store}
    (h : dbUpsertPollState p s = .ok s') :
    s'.contacts = s.contacts ∧ s'.activities = s.activities ∧ s'.drafts = s.drafts ∧
    s'.accounting = s.accounting := by
  cases h
  exact ⟨rfl, rfl, rfl, rfl⟩

theorem dbPatchJobRunFinal_spec {runId : String} {p : JobRunFinal} {s s' : Store}
    (h : dbPatchJobRunFinal runId p s = .ok s') :
    s'.contacts = s.contacts ∧ s'.activities = s.activities ∧ s'.drafts = s.drafts ∧
    s'.accounting = s.accounting := by
  cases h
  exact ⟨rfl, rfl, rfl, rfl⟩

/-! ## Step-level store effects over `dbWorld` -/

theorem contactStep_db_spec {cfg : RunCfg} {m : PollMessage} {cls : ClassificationResult}
    {se sn ts : Option String} {s : Store} {cid : Option String} {s' : Store}
    (h : contactStep dbWorld cfg m cls se sn ts s = .ok (cid, s')) :
    s'.activities = s.activities ∧ s'.drafts = s.drafts ∧ s'.accounting = s.accounting ∧
    ((strT se && (cls.label == Classification.sales
        || cls.label == Classification.support)) = true →
      ∃ rid, s'.contactRow (se.getD "") = some ⟨rid,
        { email := se.getD "", display_name := sn, last_seen_at := jsOr ts cfg.now,
          source_account_email := m.account_email, updated_at := cfg.now }⟩) := by
  unfold contactStep at h
  split at h
  · split at h
    · cases h
    · rename_i cid0 s0 heq
      cases h
      obtain ⟨ha, hd, hacc, _, _, ⟨rid, _, hrow⟩, _⟩ := dbUpsertContact_spec heq
      exact ⟨ha, hd, hacc, fun _ => ⟨rid, hrow⟩⟩
  · rename_i hncond
    cases h
    exact ⟨rfl, rfl, rfl, fun hcond => absurd hcond hncond⟩

theorem activityStep_db_spec {cfg : RunCfg} {m : PollMessage} {cls : ClassificationResult}
    {se sn ts cid : Option String} {s : Store} {aid : String} {s' : Store}
    (h : activityStep dbWorld cfg m cls se sn ts cid s = .ok (aid, s')) :
    s'.contacts = s.contacts ∧ s'.drafts = s.drafts ∧ s'.accounting = s.accounting ∧
    (∃ pd, s'.actRow m.source_key = some ⟨aid, pd⟩) ∧
    (∀ r, s.actRow m.source_key = some r → aid = r.id) ∧
    (∀ k, k ≠ m.source_key → s'.actRow k = s.actRow k) ∧
    ((s.actRow m.source_key).isSome = true → s'.activities.length = s.activities.length) ∧
    (s.actRow m.source_key = none → s'.activities.length = s.activities.length + 1) := by
  unfold activityStep at h
  split at h
  · cases h
  · rename_i aid0 s0 heq
    cases h
    obtain ⟨hc, hd, hacc, _, _, ⟨rid, hok, hrow, hstable⟩, hother, hlenF, hlenN⟩ :=
      dbUpsertActivity_spec heq
    cases hok
    exact ⟨hc, hd, hacc, ⟨_, hrow⟩, hstable, hother, hlenF, hlenN⟩
  · cases h

theorem salesStep_db_spec {cfg : RunCfg} {m : PollMessage} {se sn ts : Option String}
    {sopCues : List String} {aid : String} {s : Store} {entry : SalesDraftEntry}
    {s' : Store} (h : salesStep dbWorld cfg m se sn ts sopCues aid s = .ok (entry, s')) :
    s'.contacts = s.contacts ∧ s'.activities = s.activities ∧
    s'.accounting = s.accounting ∧
    (s'.draftRow aid).isSome = true ∧
    (∀ k, k ≠ aid → (s'.draftRow k).isSome = (s.draftRow k).isSome) ∧
    ((s.draftRow aid).isSome = true → s'.drafts.length = s.drafts.length) ∧
    (s.draftRow aid = none → s'.drafts.length = s.drafts.length + 1) := by
  simp only [salesStep] at h
  split at h
  · cases h
  · cases h
  · rename_i did s1 heq1
    split at h
    · cases h
    · rename_i s2 heq2
      split at h
      · cases h
      · rename_i o heq3
        cases h
        obtain ⟨hc1, ha1, hacc1, _, _, ⟨rid, _, hrow1⟩, hother1, hlenF1, hlenN1⟩ :=
          dbUpsertDraft_spec heq1
        obtain ⟨hc2, ha2, hacc2, _, _, hlen2, hpres2⟩ := dbPatchDraftSlack_spec heq2
        refine ⟨hc2.trans hc1, ha2.trans ha1, hacc2.trans hacc1, ?_, ?_, ?_, ?_⟩
        · rw [hpres2 aid]
          exact hrow1
        · intro k hk
          rw [hpres2 k, hother1 k hk]
        · intro hs
          rw [hlen2, hlenF1 hs]
        · intro hn
          rw [hlen2, hlenN1 hn]

theorem receiptStep_db_spec {cfg : RunCfg} {m : PollMessage} {aid : String} {s : Store}
    {entry : AccountingEntry} {s' : Store}
    (h : receiptStep dbWorld cfg m aid s = .ok (entry, s')) :
    s'.contacts = s.contacts ∧ s'.activities = s.activities ∧ s'.drafts = s.drafts ∧
    (s'.acctRow m.source_key).isSome = true ∧
    (∀ k, k ≠ m.source_key → s'.acctRow k = s.acctRow k) ∧
    ((s.acctRow m.source_key).isSome = true →
      s'.accounting.length = s.accounting.length) ∧
    (s.acctRow m.source_key = none → s'.accounting.length = s.accounting.length + 1) := by
  simp only [receiptStep] at h
  split at h
  · cases h
  · rename_i s1 heq
    cases h
    obtain ⟨hc, ha, hd, _, _, hsome, hother, hlenF, hlenN⟩ := dbUpsertAccounting_spec heq
    exact ⟨hc, ha, hd, hsome, hother, hlenF, hlenN⟩

theorem pollStateLoop_db_tables {cfg : RunCfg} {maxTs : List (String × String)}
    (accounts : List String) :
    ∀ {acc : List PollStateUpdate} {s : Store} {us : List PollStateUpdate} {s' : Store},
    pollStateLoop dbWorld cfg maxTs accounts acc s = .ok (us, s') →
    s'.contacts = s.contacts ∧ s'.activities = s.activities ∧ s'.drafts = s.drafts ∧
    s'.accounting = s.accounting := by
  induction accounts with
  | nil =>
    intro acc s us s' h
    cases h
    exact ⟨rfl, rfl, rfl, rfl⟩
  | cons a rest ih =>
    intro acc s us s' h
    simp only [pollStateLoop] at h
    split at h
    · cases h
    · rename_i s1 heq
      obtain ⟨hc, ha, hd, hacc⟩ := dbUpsertPollState_spec heq
      obtain ⟨hc2, ha2, hd2, hacc2⟩ := ih h
      exact ⟨hc2.trans hc, ha2.trans ha, hd2.trans hd, hacc2.trans hacc⟩

/-! ## Store monotonicity plumbing -/

theorem storeMono_refl (s : Store) : StoreMono s s :=
  ⟨fun _ r hr => ⟨r, hr, rfl⟩, fun _ h => h, fun _ h => h⟩

theorem storeMono_trans {s1 s2 s3 : Store} (h12 : StoreMono s1 s2)
    (h23 : StoreMono s2 s3) : StoreMono s1 s3 := by
  obtain ⟨ha12, hd12, hacc12⟩ := h12
  obtain ⟨ha23, hd23, hacc23⟩ := h23
  refine ⟨fun k r hr => ?_, fun a h => hd23 a (hd12 a h), fun k h => hacc23 k (hacc12 k h)⟩
  obtain ⟨r2, hr2, hid2⟩ := ha12 k r hr
  obtain ⟨r3, hr3, hid3⟩ := ha23 k r2 hr2
  exact ⟨r3, hr3, hid3.trans hid2⟩

theorem storeMono_of_eq {s s' : Store} (ha : s'.activities = s.activities)
    (hd : s'.drafts = s.drafts) (hacc : s'.accounting = s.accounting) :
    StoreMono s s' := by
  refine ⟨fun k r hr => ⟨r, ?_, rfl⟩, fun a hsome => ?_, fun k hsome => ?_⟩
  · show lookupRow (fun r => r.data.source_key) k s'.activities = some r
    rw [ha]
    exact hr
  · show (lookupRow draftKey a s'.drafts).isSome = true
    rw [hd]
    exact hsome
  · show (lookupRow (fun r => r.data.source_key) k s'.accounting).isSome = true
    rw [hacc]
    exact hsome

theorem actRow_congr {s s' : Store} (h : s'.activities = s.activities) (k : String) :
    s'.actRow k = s.actRow k := by
  show lookupRow (fun r => r.data.source_key) k s'.activities = _
  rw [h]
  rfl

theorem draftRow_congr {s s' : Store} (h : s'.drafts = s.drafts) (k : String) :
    s'.draftRow k = s.draftRow k := by
  show lookupRow draftKey k s'.drafts = _
  rw [h]
  rfl

theorem acctRow_congr {s s' : Store} (h : s'.accounting = s.accounting) (k : String) :
    s'.acctRow k = s.acctRow k := by
  show lookupRow (fun r => r.data.source_key) k s'.accounting = _
  rw [h]
  rfl

theorem msgPersisted_mono {s s' : Store} {m : PollMessage} (hm : StoreMono s s')
    (hp : MsgPersisted s m) : MsgPersisted s' m := by
  obtain ⟨r, hr, hdr, hacc⟩ := hp
  obtain ⟨hmA, hmD, hmAcc⟩ := hm
  obtain ⟨r', hr', hid⟩ := hmA m.source_key r hr
  refine ⟨r', hr', fun hs => ?_, fun hrec => hmAcc _ (hacc hrec)⟩
  rw [hid]
  exact hmD _ (hdr hs)

/-! ## Per-message persistence and idempotence over `dbWorld` -/

theorem processOneMessage_db_persist {cfg : RunCfg} {sopCues : List String}
    {st : LoopState Store} {m : PollMessage} {st' : LoopState Store}
    (h : processOneMessage dbWorld cfg sopCues st m = .ok st') :
    MsgPersisted st'.st m ∧ StoreMono st.st st'.st := by
  simp only [processOneMessage] at h
  split at h
  · cases h
  · rename_i cid s1 heqC
    split at h
    · cases h
    · rename_i aid s2 heqA
      obtain ⟨hCa, hCd, hCacc, _⟩ := contactStep_db_spec heqC
      obtain ⟨hAc, hAd, hAacc, ⟨pd, hArow⟩, hAstable, hAother, _, _⟩ :=
        activityStep_db_spec heqA
      have mono01 : StoreMono st.st s1 := storeMono_of_eq hCa hCd hCacc
      have mono12 : StoreMono s1 s2 := by
        refine ⟨fun k r hr => ?_, fun a hsome => ?_, fun k hsome => ?_⟩
        · by_cases hk : k = m.source_key
          · subst hk
            exact ⟨⟨aid, pd⟩, hArow, hAstable r hr⟩
          · exact ⟨r, by rw [hAother k hk]; exact hr, rfl⟩
        · rw [draftRow_congr hAd]
          exact hsome
        · rw [acctRow_congr hAacc]
          exact hsome
      split at h
      · cases h
      · rename_i st2 heq2
        have hs2 : StoreMono s2 st2.st ∧ st2.st.actRow m.source_key = some ⟨aid, pd⟩ ∧
            ((classifyInbound m).label = Classification.sales →
              (st2.st.draftRow aid).isSome = true) := by
          split at heq2
          · rename_i hsales
            split at heq2
            · cases heq2
            · rename_i entry s3 heqS
              cases heq2
              obtain ⟨hSc, hSa, hSacc, hSdraft, hSother, _, _⟩ := salesStep_db_spec heqS
              refine ⟨?_, ?_, fun _ => hSdraft⟩
              · refine ⟨fun k r hr => ⟨r, by rw [actRow_congr hSa]; exact hr, rfl⟩,
                  fun a hsome => ?_, fun k hsome => ?_⟩
                · by_cases hk : a = aid
                  · subst hk
                    exact hSdraft
                  · rw [hSother a hk]
                    exact hsome
                · rw [acctRow_congr hSacc]
                  exact hsome
              · rw [actRow_congr hSa]
                exact hArow
          · rename_i hnsales
            cases heq2
            exact ⟨storeMono_refl s2, hArow,
              fun hs => absurd (show ((classifyInbound m).label ==
                Classification.sales) = true by rw [hs]; rfl) hnsales⟩
        obtain ⟨mono23, hrow2, hdraft2⟩ := hs2
        split at h
        · rename_i hrec
          split at h
          · cases h
          · rename_i entry s4 heqR
            cases h
            obtain ⟨hRc, hRa, hRd, hRacc, hRother, _, _⟩ := receiptStep_db_spec heqR
            have mono34 : StoreMono st2.st s4 := by
              refine ⟨fun k r hr => ⟨r, by rw [actRow_congr hRa]; exact hr, rfl⟩,
                fun a hsome => ?_, fun k hsome => ?_⟩
              · rw [draftRow_congr hRd]
                exact hsome
              · by_cases hk : k = m.source_key
                · subst hk
                  exact hRacc
                · rw [hRother k hk]
                  exact hsome
            refine ⟨⟨⟨aid, pd⟩, by rw [actRow_congr hRa]; exact hrow2,
              fun hs => ?_, fun _ => hRacc⟩,
              storeMono_trans (storeMono_trans (storeMono_trans mono01 mono12) mono23)
                mono34⟩
            rw [draftRow_congr hRd]
            exact hdraft2 hs
        · rename_i hnrec
          cases h
          refine ⟨⟨⟨aid, pd⟩, hrow2, fun hs => hdraft2 hs, fun hrec => ?_⟩,
            storeMono_trans (storeMono_trans mono01 mono12) mono23⟩
          exact absurd (show ((classifyInbound m).label ==
            Classification.receipt) = true by rw [hrec]; rfl) hnrec

/-- Re-processing a message whose rows are already persisted does not grow
the Activity/Draft/FinancialRecord tables. -/
theorem processOneMessage_db_idem {cfg : RunCfg} {sopCues : List String}
    {st : LoopState Store} {m : PollMessage} {st' : LoopState Store}
    (hpre : MsgPersisted st.st m)
    (h : processOneMessage dbWorld cfg sopCues st m = .ok st') :
    st'.st.activities.length = st.st.activities.length ∧
    st'.st.drafts.length = st.st.drafts.length ∧
    st'.st.accounting.length = st.st.accounting.length ∧
    StoreMono st.st st'.st := by
  have hmono := (processOneMessage_db_persist h).2
  obtain ⟨r, hr, hdr, hacr⟩ := hpre
  simp only [processOneMessage] at h
  split at h
  · cases h
  · rename_i cid s1 heqC
    split at h
    · cases h
    · rename_i aid s2 heqA
      obtain ⟨hCa, hCd, hCacc, _⟩ := contactStep_db_spec heqC
      obtain ⟨hAc, hAd, hAacc, ⟨pd, hArow⟩, hAstable, hAother, hAlenF, _⟩ :=
        activityStep_db_spec heqA
      have hr1 : s1.actRow m.source_key = some r := by
        rw [actRow_congr hCa]
        exact hr
      have haid : aid = r.id := hAstable r hr1
      have hlenA : s2.activities.length = st.st.activities.length := by
        rw [hAlenF (by rw [hr1]; rfl), hCa]
      have hdr2 : s2.drafts = st.st.drafts := hAd.trans hCd
      have hacc2 : s2.accounting = st.st.accounting := hAacc.trans hCacc
      split at h
      · cases h
      · rename_i st2 heq2
        have hst2 : st2.st.activities.length = st.st.activities.length ∧
            st2.st.drafts.length = st.st.drafts.length ∧
            st2.st.accounting = st.st.accounting := by
          split at heq2
          · rename_i hsales
            split at heq2
            · cases heq2
            · rename_i entry s3 heqS
              cases heq2
              obtain ⟨hSc, hSa, hSacc, hSdraft, hSother, hSlenF, _⟩ :=
                salesStep_db_spec heqS
              have hdpre : (s2.draftRow aid).isSome = true := by
                rw [haid, draftRow_congr hdr2]
                exact hdr (eq_of_beq hsales)
              refine ⟨?_, ?_, hSacc.trans hacc2⟩
              · rw [hSa]
                exact hlenA
              · rw [hSlenF hdpre, hdr2]
          · cases heq2
            exact ⟨hlenA, by rw [hdr2], hacc2⟩
        obtain ⟨h2A, h2D, h2Acc⟩ := hst2
        split at h
        · rename_i hrec
          split at h
          · cases h
          · rename_i entry s4 heqR
            cases h
            obtain ⟨hRc, hRa, hRd, hRsome, hRother, hRlenF, _⟩ := receiptStep_db_spec heqR
            have hapre : (st2.st.acctRow m.source_key).isSome = true := by
              rw [acctRow_congr h2Acc]
              exact hacr (eq_of_beq hrec)
            refine ⟨?_, ?_, ?_, hmono⟩
            · rw [hRa]
              exact h2A
            · rw [hRd]
              exact h2D
            · rw [hRlenF hapre, h2Acc]
        · cases h
          exact ⟨h2A, h2D, by rw [h2Acc], hmono⟩

/-- Every message of a successfully processed batch is persisted, and the
three tables only grow. -/
theorem processMessages_db_persist {cfg : RunCfg} {sopCues : List String}
    (msgs : List PollMessage) :
    ∀ {st st' : LoopState Store},
    processMessages dbWorld cfg sopCues msgs st = .ok st' →
    (∀ m ∈ msgs, MsgPersisted st'.st m) ∧ StoreMono st.st st'.st := by
  induction msgs with
  | nil =>
    intro st st' h
    cases h
    exact ⟨fun m hm => absurd hm (List.not_mem_nil m), storeMono_refl _⟩
  | cons m rest ih =>
    intro st st' h
    simp only [processMessages] at h
    split at h
    · cases h
    · rename_i st1 heq1
      obtain ⟨hp1, hm1⟩ := processOneMessage_db_persist heq1
      obtain ⟨hall, hmono⟩ := ih h
      refine ⟨?_, storeMono_trans hm1 hmono⟩
      intro x hx
      rcases List.mem_cons.mp hx with hx | hx
      · subst hx
        exact msgPersisted_mono hmono hp1
      · exact hall x hx

/-- Replaying a batch whose messages are all persisted does not change the
row counts of the three tables. -/
theorem processMessages_db_idem {cfg : RunCfg} {sopCues : List String}
    (msgs : List PollMessage) :
    ∀ {st st' : LoopState Store},
    (∀ m ∈ msgs, MsgPersisted st.st m) →
    processMessages dbWorld cfg sopCues msgs st = .ok st' →
    tableLens st'.st = tableLens st.st ∧ StoreMono st.st st'.st := by
  induction msgs with
  | nil =>
    intro st st' _ h
    cases h
    exact ⟨rfl, storeMono_refl _⟩
  | cons m rest ih =>
    intro st st' hpre h
    simp only [processMessages] at h
    split at h
    · cases h
    · rename_i st1 heq1
      have hpm : MsgPersisted st.st m := hpre m (List.mem_cons_self m rest)
      obtain ⟨hlA, hlD, hlAcc, hm1⟩ := processOneMessage_db_idem hpm heq1
      have hpre1 : ∀ x ∈ rest, MsgPersisted st1.st x := fun x hx =>
        msgPersisted_mono hm1 (hpre x (List.mem_cons_of_mem m hx))
      obtain ⟨hlen, hmono⟩ := ih hpre1 h
      refine ⟨?_, storeMono_trans hm1 hmono⟩
      rw [hlen]
      simp only [tableLens]
      rw [hlA, hlD, hlAcc]

/-- A successful run over `dbWorld` leaves every polled message persisted in
the final store. -/
theorem processRun_db_persist {cfg : RunCfg} {poll : PollFile} {s0 : Store}
    {res : ProcessResult} {sF : Store}
    (h : processRun dbWorld cfg poll s0 = .ok (res, sF)) :
    ∀ m ∈ poll.messages, MsgPersisted sF m := by
  simp only [processRun] at h
  split at h
  · cases h
  · rename_i s1 heq1
    split at h
    · cases h
    · rename_i st heq2
      split at h
      · cases h
      · rename_i updates s2 heq3
        split at h
        · cases h
        · rename_i s3 heq4
          cases h
          obtain ⟨hall, _⟩ := processMessages_db_persist poll.messages heq2
          obtain ⟨_, hpa, hpd, hpacc⟩ := pollStateLoop_db_tables (accountList poll) heq3
          obtain ⟨_, hfa, hfd, hfacc⟩ := dbPatchJobRunFinal_spec heq4
          intro m hm
          exact msgPersisted_mono
            (storeMono_trans (storeMono_of_eq hpa hpd hpacc)
              (storeMono_of_eq hfa hfd hfacc)) (hall m hm)

/-- Replaying a whole run on a store in which every polled message is
already persisted does not change the row counts of the three tables. -/
theorem processRun_db_idem {cfg : RunCfg} {poll : PollFile} {s0 : Store}
    {res : ProcessResult} {sF : Store}
    (hpre : ∀ m ∈ poll.messages, MsgPersisted s0 m)
    (h : processRun dbWorld cfg poll s0 = .ok (res, sF)) :
    tableLens sF = tableLens s0 := by
  simp only [processRun] at h
  split at h
  · cases h
  · rename_i s1 heq1
    split at h
    · cases h
    · rename_i st heq2
      split at h
      · cases h
      · rename_i updates s2 heq3
        split at h
        · cases h
        · rename_i s3 heq4
          cases h
          obtain ⟨_, hja, hjd, hjacc⟩ := dbUpsertJobRun_spec heq1
          have hpre1 : ∀ m ∈ poll.messages, MsgPersisted s1 m := fun m hm =>
            msgPersisted_mono (storeMono_of_eq hja hjd hjacc) (hpre m hm)
          obtain ⟨hlen, _⟩ := processMessages_db_idem poll.messages hpre1 heq2
          obtain ⟨_, hpa, hpd, hpacc⟩ := pollStateLoop_db_tables (accountList poll) heq3
          obtain ⟨_, hfa, hfd, hfacc⟩ := dbPatchJobRunFinal_spec heq4
          have h2 : tableLens sF = tableLens s2 := by
            simp only [tableLens]
            rw [hfa, hfd, hfacc]
          have h3 : tableLens s2 = tableLens st.st := by
            simp only [tableLens]
            rw [hpa, hpd, hpacc]
          have h1 : tableLens s1 = tableLens s0 := by
            simp only [tableLens]
            rw [hja, hjd, hjacc]
          rw [h2, h3, hlen]
          exact h1

/-- C9: processing the same poll batch twice leaves the same number of
Activity, Draft and FinancialRecord rows as processing it once: the
Activity and FinancialRecord writes are upserts keyed by the message's
dedup key and the Draft write is an upsert keyed by the activity link, so
the replay merges into the existing rows instead of inserting duplicates. -/
theorem c9_idempotent_rows {cfg1 cfg2 : RunCfg} {poll : PollFile} {s0 s1 s2 : Store}
    {r1 r2 : ProcessResult}
    (h1 : processRun dbWorld cfg1 poll s0 = .ok (r1, s1))
    (h2 : processRun dbWorld cfg2 poll s1 = .ok (r2, s2)) :
    s2.activities.length = s1.activities.length ∧
    s2.drafts.length = s1.drafts.length ∧
    s2.accounting.length = s1.accounting.length := by
  have hpre := processRun_db_persist h1
  have hlen := processRun_db_idem hpre h2
  simp only [tableLens, Prod.mk.injEq] at hlen
  exact ⟨hlen.1, hlen.2.1, hlen.2.2⟩

theorem c9_idempotent_rows_witness :
    ((processRun dbWorld cfg0 pollBoth
          (((processRun dbWorld cfg0 pollBoth ({} : Store)).toOption.getD
            dfltPR).2)).toOption.getD dfltPR).2.activities.length =
      (((processRun dbWorld cfg0 pollBoth ({} : Store)).toOption.getD
        dfltPR).2).activities.length ∧
    ((processRun dbWorld cfg0 pollBoth
          (((processRun dbWorld cfg0 pollBoth ({} : Store)).toOption.getD
            dfltPR).2)).toOption.getD dfltPR).2.drafts.length =
      (((processRun dbWorld cfg0 pollBoth ({} : Store)).toOption.getD
        dfltPR).2).drafts.length ∧
    ((processRun dbWorld cfg0 pollBoth
          (((processRun dbWorld cfg0 pollBoth ({} : Store)).toOption.getD
            dfltPR).2)).toOption.getD dfltPR).2.accounting.length =
      (((processRun dbWorld cfg0 pollBoth ({} : Store)).toOption.getD
        dfltPR).2).accounting.length := by
  have h1 : processRun dbWorld cfg0 pollBoth ({} : Store) =
      .ok (((processRun dbWorld cfg0 pollBoth ({} : Store)).toOption.getD dfltPR).1,
        ((processRun dbWorld cfg0 pollBoth ({} : Store)).toOption.getD dfltPR).2) := by
    rfl
  have h2 : processRun dbWorld cfg0 pollBoth
      (((processRun dbWorld cfg0 pollBoth ({} : Store)).toOption.getD dfltPR).2) =
      .ok (((processRun dbWorld cfg0 pollBoth
          (((processRun dbWorld cfg0 pollBoth ({} : Store)).toOption.getD
            dfltPR).2)).toOption.getD dfltPR).1,
        ((processRun dbWorld cfg0 pollBoth
          (((processRun dbWorld cfg0 pollBoth ({} : Store)).toOption.getD
            dfltPR).2)).toOption.getD dfltPR).2) := by
    rfl
  exact c9_idempotent_rows h1 h2

theorem contactRow_congr {s s' : Store} (h : s'.contacts = s.contacts) (k : String) :
    s'.contactRow k = s.contactRow k := by
  simp only [Store.contactRow, h]

/-- C2 counterexample: a contact stored with last-seen `"200"` is
overwritten with the older message timestamp `"100"` by a run over Jane's
sales message (`received_at = "100"`, which parses below `"200"`): the
stored last-seen timestamp regresses instead of staying unchanged. -/
theorem c2_counterexample :
    (classifyInbound mJane).label = Classification.sales ∧
    strT (extractEmailAddress mJane.from_) = true ∧
    (storeJane.contactRow "jane@acmeco.com").map (fun r => r.data.last_seen_at) =
      some "200" ∧
    tsParse "100" = some 100 ∧ tsParse "200" = some 200 ∧
    (processRun dbWorld cfg0 pollJane storeJane).toOption.isSome = true ∧
    (((processRun dbWorld cfg0 pollJane storeJane).toOption.getD dfltPR).2.contactRow
        "jane@acmeco.com").map (fun r => r.data.last_seen_at) = some "100" := by
  refine ⟨by decide, by decide, by decide, by decide, by decide, by rfl, by rfl⟩

/-- C2 (corrected): the contact upsert never compares timestamps — for a
sales/support message with a resolvable sender it unconditionally
overwrites the stored contact row with the incoming message's display name
and timestamp (falling back to `now` when the message has none), so an
older message moves the stored last-seen timestamp backwards. -/
theorem c2_last_seen_overwrite_amended {cfg : RunCfg} {sopCues : List String}
    {st : LoopState Store} {m : PollMessage} {st' : LoopState Store}
    (h : processOneMessage dbWorld cfg sopCues st m = .ok st')
    (hlab : ((classifyInbound m).label == Classification.sales
        || (classifyInbound m).label == Classification.support) = true)
    (hse : strT (extractEmailAddress m.from_) = true) :
    ∃ rid, st'.st.contactRow ((extractEmailAddress m.from_).getD "") = some ⟨rid,
      { email := (extractEmailAddress m.from_).getD "",
        display_name := extractDisplayName m.from_,
        last_seen_at := jsOr (messageTs cfg.tsOfEpoch m) cfg.now,
        source_account_email := m.account_email, updated_at := cfg.now }⟩ := by
  simp only [processOneMessage] at h
  split at h
  · cases h
  · rename_i cid s1 heqC
    split at h
    · cases h
    · rename_i aid s2 heqA
      obtain ⟨_, _, _, hrow⟩ := contactStep_db_spec heqC
      obtain ⟨rid, hr1⟩ := hrow (by rw [hse, hlab]; rfl)
      obtain ⟨hAc, _, _, _, _, _, _, _⟩ := activityStep_db_spec heqA
      have hr2 := (contactRow_congr hAc ((extractEmailAddress m.from_).getD "")).trans hr1
      split at h
      · cases h
      · rename_i st2 heq2
        have hr3 : st2.st.contactRow ((extractEmailAddress m.from_).getD "") =
            s2.contactRow ((extractEmailAddress m.from_).getD "") := by
          split at heq2
          · split at heq2
            · cases heq2
            · rename_i entry s3 heqS
              cases heq2
              exact contactRow_congr (salesStep_db_spec heqS).1 _
          · cases heq2
            rfl
        split at h
        · split at h
          · cases h
          · rename_i entry s4 heqR
            cases h
            refine ⟨rid, ?_⟩
            rw [contactRow_congr (receiptStep_db_spec heqR).1, hr3]
            exact hr2
        · cases h
          exact ⟨rid, hr3.trans hr2⟩

theorem c2_last_seen_overwrite_witness :
    ∃ rid,
      ((processOneMessage dbWorld cfg0 [] lsJane mJane).toOption.getD
          dfltLS).st.contactRow ((extractEmailAddress mJane.from_).getD "") = some ⟨rid,
        { email := (extractEmailAddress mJane.from_).getD "",
          display_name := extractDisplayName mJane.from_,
          last_seen_at := jsOr (messageTs cfg0.tsOfEpoch mJane) cfg0.now,
          source_account_email := mJane.account_email, updated_at := cfg0.now }⟩ :=
  @c2_last_seen_overwrite_amended cfg0 [] lsJane mJane
    ((processOneMessage dbWorld cfg0 [] lsJane mJane).toOption.getD dfltLS)
    (by rfl) (by decide) (by decide)

/-! ## The watermark fold (`maxTsByAccount`) -/

theorem lookupAssoc_set_self (l : List (String × String)) (k v : String) :
    lookupAssoc (setAssoc l k v) k = some v := by
  induction l with
  | nil => simp [setAssoc, lookupAssoc, List.find?]
  | cons p rest ih =>
    obtain ⟨k', v'⟩ := p
    simp only [setAssoc]
    cases hk : k' == k with
    | true => simp [lookupAssoc, List.find?]
    | false =>
      simp only [Bool.false_eq_true, if_false]
      simp only [lookupAssoc, List.find?, hk]
      exact ih

theorem lookupAssoc_set_other (l : List (String × String)) (k v k' : String)
    (hne : k' ≠ k) : lookupAssoc (setAssoc l k v) k' = lookupAssoc l k' := by
  have hkk : (k == k') = false := by simp [hne, Ne.symm hne, beq_iff_eq]
  induction l with
  | nil => simp [setAssoc, lookupAssoc, List.find?, hkk]
  | cons p rest ih =>
    obtain ⟨k0, v0⟩ := p
    simp only [setAssoc]
    cases hk : k0 == k with
    | true =>
      have hk0 : k0 = k := eq_of_beq hk
      subst hk0
      simp only [if_true]
      simp only [lookupAssoc, List.find?, hkk]
    | false =>
      simp only [Bool.false_eq_true, if_false]
      simp only [lookupAssoc, List.find?]
      cases hk0 : k0 == k' with
      | true => rfl
      | false => exact ih

theorem wmStep_lookup_other {parse : String → Option Int} {tsOfEpoch : Int → String}
    {acc : List (String × String)} {m : PollMessage} {a : String}
    (hae : (m.account_email == a) = false) :
    lookupAssoc (wmStep parse tsOfEpoch acc m) a = lookupAssoc acc a := by
  have hne : a ≠ m.account_email := by
    intro he
    rw [he, beq_self_eq_true] at hae
    cases hae
  cases hmt : messageTs tsOfEpoch m with
  | none => simp only [wmStep, hmt]
  | some ts =>
    cases hemp : ts.isEmpty with
    | true => simp only [wmStep, hmt, hemp, if_true]
    | false =>
      simp only [wmStep, hmt, hemp, Bool.false_eq_true, if_false]
      cases hl : lookupAssoc acc m.account_email with
      | none =>
        simp only [hl]
        exact lookupAssoc_set_other acc m.account_email ts a hne
      | some prior =>
        simp only [hl]
        cases hgt : parseGt parse ts prior with
        | true =>
          simp only [if_true]
          exact lookupAssoc_set_other acc m.account_email ts a hne
        | false => simp only [Bool.false_eq_true, if_false]

theorem wmStep_lookup_self {parse : String → Option Int} {tsOfEpoch : Int → String}
    {acc : List (String × String)} {m : PollMessage} {a : String}
    (hae : (m.account_email == a) = true) :
    lookupAssoc (wmStep parse tsOfEpoch acc m) a =
      match (match messageTs tsOfEpoch m with
             | some ts => if ts.isEmpty then none else some ts
             | none => none) with
      | some ts => tsStep parse (lookupAssoc acc a) ts
      | none => lookupAssoc acc a := by
  have hea : m.account_email = a := eq_of_beq hae
  subst hea
  cases hmt : messageTs tsOfEpoch m with
  | none => simp only [wmStep, hmt]
  | some ts =>
    cases hemp : ts.isEmpty with
    | true => simp only [wmStep, hmt, hemp, if_true]
    | false =>
      simp only [wmStep, hmt, hemp, Bool.false_eq_true, if_false, tsStep]
      cases hl : lookupAssoc acc m.account_email with
      | none =>
        simp only [hl]
        exact lookupAssoc_set_self acc m.account_email ts
      | some prior =>
        simp only [hl]
        cases hgt : parseGt parse ts prior with
        | true =>
          simp only [if_true]
          exact lookupAssoc_set_self acc m.account_email ts
        | false =>
          simp only [Bool.false_eq_true, if_false]
          exact hl

/-- The per-mailbox projection of the watermark fold is the `tsStep` fold
over that mailbox's usable timestamps. -/
theorem foldWM_lookup (parse : String → Option Int) (tsOfEpoch : Int → String)
    (a : String) : ∀ (msgs : List PollMessage) (acc : List (String × String)),
    lookupAssoc (msgs.foldl (wmStep parse tsOfEpoch) acc) a =
      (accountTss tsOfEpoch a msgs).foldl (tsStep parse) (lookupAssoc acc a) := by
  intro msgs
  induction msgs with
  | nil => intro acc; rfl
  | cons m rest ih =>
    intro acc
    show lookupAssoc (rest.foldl (wmStep parse tsOfEpoch) (wmStep parse tsOfEpoch acc m)) a
        = _
    rw [ih]
    cases hae : m.account_email == a with
    | false =>
      rw [wmStep_lookup_other hae]
      have hne : ¬ (m.account_email = a) := by
        simp only [beq_eq_false_iff_ne, ne_eq] at hae
        exact hae
      have h1 : accountTss tsOfEpoch a (m :: rest) = accountTss tsOfEpoch a rest := by
        simp [accountTss, List.filterMap_cons, hne]
      rw [h1]
    | true =>
      have hea : m.account_email = a := eq_of_beq hae
      have h2 := @wmStep_lookup_self parse tsOfEpoch acc m a hae
      cases hmt : messageTs tsOfEpoch m with
      | none =>
        have h1 : accountTss tsOfEpoch a (m :: rest) = accountTss tsOfEpoch a rest := by
          simp [accountTss, List.filterMap_cons, hea, hmt]
        rw [h1]
        rw [hmt] at h2
        rw [h2]
      | some ts =>
        cases hemp : ts.isEmpty with
        | true =>
          have h1 : accountTss tsOfEpoch a (m :: rest) = accountTss tsOfEpoch a rest := by
            simp [accountTss, List.filterMap_cons, hea, hmt, hemp]
          rw [h1]
          rw [hmt] at h2
          simp only [hemp, if_true] at h2
          rw [h2]
        | false =>
          have h1 : accountTss tsOfEpoch a (m :: rest) =
              ts :: accountTss tsOfEpoch a rest := by
            simp [accountTss, List.filterMap_cons, hea, hmt, hemp]
          rw [h1]
          rw [hmt] at h2
          simp only [hemp, Bool.false_eq_true, if_false] at h2
          rw [h2]
          rfl

/-- The `tsStep` fold from a parseable seed yields a parseable value that is
an upper bound (under `parse`) of the seed and of every parseable element,
and is the seed or an element. -/
theorem tsFold_spec (parse : String → Option Int) :
    ∀ (l : List String) (a0 : String) (x0 : Int),
    (∀ ts ∈ l, (parse ts).isSome = true) → parse a0 = some x0 →
    ∃ w y, l.foldl (tsStep parse) (some a0) = some w ∧ parse w = some y ∧
      x0 ≤ y ∧ (w = a0 ∨ w ∈ l) ∧
      (∀ u ∈ l, ∀ xu : Int, parse u = some xu → xu ≤ y) := by
  intro l
  induction l with
  | nil =>
    intro a0 x0 _ h0
    exact ⟨a0, x0, rfl, h0, le_refl x0, Or.inl rfl,
      fun u hu => absurd hu (List.not_mem_nil u)⟩
  | cons t rest ih =>
    intro a0 x0 hall h0
    have ht : (parse t).isSome = true := hall t (List.mem_cons_self t rest)
    obtain ⟨xt, hxt⟩ := Option.isSome_iff_exists.mp ht
    have hallr : ∀ ts ∈ rest, (parse ts).isSome = true :=
      fun ts hts => hall ts (List.mem_cons_of_mem t hts)
    have hstep : List.foldl (tsStep parse) (some a0) (t :: rest) =
        List.foldl (tsStep parse) (tsStep parse (some a0) t) rest := rfl
    cases hgt : parseGt parse t a0 with
    | true =>
      have hx0t : x0 < xt := by
        simp only [parseGt, hxt, h0, decide_eq_true_eq] at hgt
        exact hgt
      have htt : tsStep parse (some a0) t = some t := by
        simp [tsStep, hgt]
      obtain ⟨w, y, hw, hpw, hge, hmem, hub⟩ := ih t xt hallr hxt
      refine ⟨w, y, ?_, hpw, le_of_lt (lt_of_lt_of_le hx0t hge), ?_, ?_⟩
      · rw [hstep, htt]
        exact hw
      · rcases hmem with hm | hm
        · exact Or.inr (hm ▸ List.mem_cons_self t rest)
        · exact Or.inr (List.mem_cons_of_mem t hm)
      · intro u hu xu hxu
        rcases List.mem_cons.mp hu with hu | hu
        · subst hu
          rw [hxu] at hxt
          have hx := Option.some.inj hxt
          exact hx ▸ hge
        · exact hub u hu xu hxu
    | false =>
      have hxt0 : xt ≤ x0 := by
        simp only [parseGt, hxt, h0, decide_eq_false_iff_not] at hgt
        exact le_of_not_lt hgt
      have htt : tsStep parse (some a0) t = some a0 := by
        simp [tsStep, hgt]
      obtain ⟨w, y, hw, hpw, hge, hmem, hub⟩ := ih a0 x0 hallr h0
      refine ⟨w, y, ?_, hpw, hge, ?_, ?_⟩
      · rw [hstep, htt]
        exact hw
      · rcases hmem with hm | hm
        · exact Or.inl hm
        · exact Or.inr (List.mem_cons_of_mem t hm)
      · intro u hu xu hxu
        rcases List.mem_cons.mp hu with hu | hu
        · subst hu
          rw [hxu] at hxt
          have hx := Option.some.inj hxt
          exact hx ▸ le_trans hxt0 hge
        · exact hub u hu xu hxu

/-- On a non-empty all-parseable timestamp list, the `tsStep` fold from
`none` picks an element whose parse value bounds every element's. -/
theorem tsFold_none_spec (parse : String → Option Int) (l : List String)
    (hne : l ≠ []) (hall : ∀ ts ∈ l, (parse ts).isSome = true) :
    ∃ w y, l.foldl (tsStep parse) none = some w ∧ parse w = some y ∧ w ∈ l ∧
      ∀ u ∈ l, ∀ xu : Int, parse u = some xu → xu ≤ y := by
  cases l with
  | nil => exact absurd rfl hne
  | cons t rest =>
    have ht := hall t (List.mem_cons_self t rest)
    obtain ⟨xt, hxt⟩ := Option.isSome_iff_exists.mp ht
    obtain ⟨w, y, hw, hpw, hge, hmem, hub⟩ :=
      tsFold_spec parse rest t xt (fun ts hts => hall ts (List.mem_cons_of_mem t hts)) hxt
    refine ⟨w, y, ?_, hpw, ?_, ?_⟩
    · show rest.foldl (tsStep parse) (tsStep parse none t) = some w
      exact hw
    · rcases hmem with he | hm
      · exact he ▸ List.mem_cons_self t rest
      · exact List.mem_cons_of_mem t hm
    · intro u hu xu hxu
      rcases List.mem_cons.mp hu with hu | hu
      · subst hu
        rw [hxu] at hxt
        have hx := Option.some.inj hxt
        exact hx ▸ hge
      · exact hub u hu xu hxu

/-- The loop's `maxTsByAccount` accumulator after one message is exactly one
`wmStep`, whatever the persistence world did. -/
theorem processOneMessage_maxTs {σ : Type} {W : World σ} {cfg : RunCfg}
    {sopCues : List String} {st : LoopState σ} {m : PollMessage} {st' : LoopState σ}
    (h : processOneMessage W cfg sopCues st m = .ok st') :
    st'.maxTs = wmStep cfg.parse cfg.tsOfEpoch st.maxTs m := by
  simp only [processOneMessage] at h
  split at h
  · cases h
  · rename_i cid s1 heqC
    split at h
    · cases h
    · rename_i aid s2 heqA
      split at h
      · cases h
      · rename_i st2 heq2
        have h2 : st2.maxTs = wmStep cfg.parse cfg.tsOfEpoch st.maxTs m := by
          split at heq2
          · split at heq2
            · cases heq2
            · cases heq2
              rfl
          · cases heq2
            rfl
        split at h
        · split at h
          · cases h
          · cases h
            exact h2
        · cases h
          exact h2

theorem processMessages_maxTs {σ : Type} {W : World σ} {cfg : RunCfg}
    {sopCues : List String} (msgs : List PollMessage) :
    ∀ {st st' : LoopState σ}, processMessages W cfg sopCues msgs st = .ok st' →
    st'.maxTs = msgs.foldl (wmStep cfg.parse cfg.tsOfEpoch) st.maxTs := by
  induction msgs with
  | nil =>
    intro st st' h
    cases h
    rfl
  | cons m rest ih =>
    intro st st' h
    simp only [processMessages] at h
    split at h
    · cases h
    · rename_i st1 heq1
      rw [ih h, processOneMessage_maxTs heq1]
      rfl

/-- The `pollStateUpdates` list records, for each account in order, `now`
and the watermark looked up in the accumulated map. -/
theorem pollStateLoop_updates {σ : Type} {W : World σ} {cfg : RunCfg}
    {maxTs : List (String × String)} :
    ∀ (accounts : List String) {acc : List PollStateUpdate} {s : σ}
      {us : List PollStateUpdate} {s' : σ},
    pollStateLoop W cfg maxTs accounts acc s = .ok (us, s') →
    us = acc ++ accounts.map (fun a =>
      ({ account_email := a, last_polled_at := cfg.now,
         last_message_ts := lookupAssoc maxTs a } : PollStateUpdate)) := by
  intro accounts
  induction accounts with
  | nil =>
    intro acc s us s' h
    cases h
    simp
  | cons a rest ih =>
    intro acc s us s' h
    simp only [pollStateLoop] at h
    split at h
    · cases h
    · rename_i s1 heq
      rw [ih h]
      simp

/-- A successful run's `poll_state_updates` field, in closed form: one entry
per deduplicated account, carrying the `finalWM` watermark lookup. -/
theorem processRun_updates {σ : Type} {W : World σ} {cfg : RunCfg} {poll : PollFile}
    {s0 : σ} {res : ProcessResult} {sF : σ}
    (h : processRun W cfg poll s0 = .ok (res, sF)) :
    res.poll_state_updates = (accountList poll).map (fun a =>
      ({ account_email := a, last_polled_at := cfg.now,
         last_message_ts :=
           lookupAssoc (finalWM cfg.parse cfg.tsOfEpoch poll.messages) a } :
        PollStateUpdate)) := by
  simp only [processRun] at h
  split at h
  · cases h
  · rename_i s1 heq1
    split at h
    · cases h
    · rename_i st heq2
      split at h
      · cases h
      · rename_i updates s2 heq3
        split at h
        · cases h
        · rename_i s3 heq4
          cases h
          have hu := pollStateLoop_updates (accountList poll) heq3
          have hm := processMessages_maxTs poll.messages heq2
          show updates = _
          rw [hu]
          simp only [hm, List.nil_append]
          rfl

theorem mem_dedupGo (x : String) : ∀ (seen l : List String),
    x ∈ l → seen.contains x = false → x ∈ dedupGo seen l := by
  intro seen l
  induction l generalizing seen with
  | nil =>
    intro h _
    cases h
  | cons y ys ih =>
    intro hx hns
    have hns' : ¬ x ∈ seen := by
      intro hm
      simp [hm] at hns
    simp only [dedupGo]
    by_cases hy : seen.contains y = true
    · rw [if_pos hy]
      rcases List.mem_cons.mp hx with he | hm
      · subst he
        rw [hns] at hy
        cases hy
      · exact ih seen hm hns
    · rw [if_neg hy]
      rcases List.mem_cons.mp hx with he | hm
      · subst he
        exact List.mem_cons_self x _
      · by_cases hxy : x = y
        · subst hxy
          exact List.mem_cons_self x _
        · refine List.mem_cons_of_mem y (ih (y :: seen) hm ?_)
          simp [hxy, hns']

theorem mem_accountList_of_msg {poll : PollFile} {m : PollMessage}
    (hm : m ∈ poll.messages) : m.account_email ∈ accountList poll := by
  apply mem_dedupGo
  · exact List.mem_append_left _ (List.mem_map_of_mem _ hm)
  · rfl

/-- C8 counterexample: with an unparseable timestamp in the batch the
recorded watermark is neither the maximum nor order-independent —
`Date.parse` comparisons against `NaN` are all false, so whichever value is
installed first sticks: the batch `["bad", "2"]` records `"bad"`, its
permutation `["2", "bad"]` records `"2"`. -/
theorem c8_counterexample :
    tsParse "bad" = none ∧ tsParse "2" = some 2 ∧
    List.Perm pollTwoBad.messages pollBadTwo.messages ∧
    ((processRun dbWorld cfg0 pollBadTwo ({} : Store)).toOption.getD
        dfltPR).1.poll_state_updates =
      [{ account_email := "m", last_polled_at := "900", last_message_ts := some "bad" }] ∧
    ((processRun dbWorld cfg0 pollTwoBad ({} : Store)).toOption.getD
        dfltPR).1.poll_state_updates =
      [{ account_email := "m", last_polled_at := "900", last_message_ts := some "2" }] := by
  refine ⟨by decide, by decide, by decide, by rfl, by rfl⟩

/-- C8 (corrected): for a mailbox all of whose usable message timestamps
parse, a successful run records as that mailbox's watermark a timestamp of
maximal parse value, and the recorded parse value is independent of the
message order: a permuted batch records a timestamp with the same parse
value. (Without the parseability hypothesis this fails: an unparseable
timestamp makes the fold order-dependent, since `Date.parse` comparisons
against `NaN` are always false.) -/
theorem c8_watermark_amended {cfg : RunCfg} {poll poll2 : PollFile} {s0 s02 : Store}
    {res res2 : ProcessResult} {sF sF2 : Store} {a : String}
    (h : processRun dbWorld cfg poll s0 = .ok (res, sF))
    (h2 : processRun dbWorld cfg poll2 s02 = .ok (res2, sF2))
    (hperm : List.Perm poll2.messages poll.messages)
    (hne : accountTss cfg.tsOfEpoch a poll.messages ≠ [])
    (hall : ∀ ts ∈ accountTss cfg.tsOfEpoch a poll.messages,
      (cfg.parse ts).isSome = true) :
    ∃ w w2 y,
      ({ account_email := a, last_polled_at := cfg.now,
         last_message_ts := some w } : PollStateUpdate) ∈ res.poll_state_updates ∧
      ({ account_email := a, last_polled_at := cfg.now,
         last_message_ts := some w2 } : PollStateUpdate) ∈ res2.poll_state_updates ∧
      cfg.parse w = some y ∧ cfg.parse w2 = some y ∧
      w ∈ accountTss cfg.tsOfEpoch a poll.messages ∧
      (∀ u ∈ accountTss cfg.tsOfEpoch a poll.messages, ∀ x : Int,
        cfg.parse u = some x → x ≤ y) := by
  have hpermTss : List.Perm (accountTss cfg.tsOfEpoch a poll2.messages)
      (accountTss cfg.tsOfEpoch a poll.messages) := hperm.filterMap _
  have hne2 : accountTss cfg.tsOfEpoch a poll2.messages ≠ [] := by
    intro hnil
    exact hne ((hnil ▸ hpermTss : List.Perm [] _).symm.eq_nil)
  have hall2 : ∀ ts ∈ accountTss cfg.tsOfEpoch a poll2.messages,
      (cfg.parse ts).isSome = true :=
    fun ts hts => hall ts (hpermTss.mem_iff.mp hts)
  obtain ⟨w, y, hw, hpw, hwmem, hub⟩ :=
    tsFold_none_spec cfg.parse (accountTss cfg.tsOfEpoch a poll.messages) hne hall
  obtain ⟨w2, y2, hw2, hpw2, hwmem2, hub2⟩ :=
    tsFold_none_spec cfg.parse (accountTss cfg.tsOfEpoch a poll2.messages) hne2 hall2
  have hyy : y2 = y := by
    refine le_antisymm ?_ ?_
    · exact hub w2 (hpermTss.mem_iff.mp hwmem2) y2 hpw2
    · exact hub2 w (hpermTss.mem_iff.mpr hwmem) y hpw
  -- a is a deduplicated account of both batches
  have hex : ∃ m ∈ poll.messages, m.account_email = a := by
    by_contra hc
    push_neg at hc
    apply hne
    apply List.filterMap_eq_nil_iff.mpr
    intro m hm
    have := hc m hm
    simp [accountTss, this]
  obtain ⟨m, hmmem, hma⟩ := hex
  have haL : a ∈ accountList poll := hma ▸ mem_accountList_of_msg hmmem
  have haL2 : a ∈ accountList poll2 :=
    hma ▸ mem_accountList_of_msg (hperm.mem_iff.mpr hmmem)
  have hlook : lookupAssoc (finalWM cfg.parse cfg.tsOfEpoch poll.messages) a = some w := by
    show lookupAssoc (poll.messages.foldl (wmStep cfg.parse cfg.tsOfEpoch) []) a = some w
    rw [foldWM_lookup]
    exact hw
  have hlook2 : lookupAssoc (finalWM cfg.parse cfg.tsOfEpoch poll2.messages) a =
      some w2 := by
    show lookupAssoc (poll2.messages.foldl (wmStep cfg.parse cfg.tsOfEpoch) []) a = some w2
    rw [foldWM_lookup]
    exact hw2
  refine ⟨w, w2, y, ?_, ?_, hpw, hyy ▸ hpw2, hwmem, hub⟩
  · rw [processRun_updates h]
    refine List.mem_map.mpr ⟨a, haL, ?_⟩
    rw [hlook]
  · rw [processRun_updates h2]
    refine List.mem_map.mpr ⟨a, haL2, ?_⟩
    rw [hlook2]

theorem c8_watermark_witness :
    ∃ w w2 y,
      ({ account_email := "m", last_polled_at := cfg0.now,
         last_message_ts := some w } : PollStateUpdate) ∈
        ((processRun dbWorld cfg0 pollW ({} : Store)).toOption.getD
          dfltPR).1.poll_state_updates ∧
      ({ account_email := "m", last_polled_at := cfg0.now,
         last_message_ts := some w2 } : PollStateUpdate) ∈
        ((processRun dbWorld cfg0 pollW2 ({} : Store)).toOption.getD
          dfltPR).1.poll_state_updates ∧
      cfg0.parse w = some y ∧ cfg0.parse w2 = some y ∧
      w ∈ accountTss cfg0.tsOfEpoch "m" pollW.messages ∧
      (∀ u ∈ accountTss cfg0.tsOfEpoch "m" pollW.messages, ∀ x : Int,
        cfg0.parse u = some x → x ≤ y) :=
  @c8_watermark_amended cfg0 pollW pollW2 {} {}
    ((processRun dbWorld cfg0 pollW ({} : Store)).toOption.getD dfltPR).1
    ((processRun dbWorld cfg0 pollW2 ({} : Store)).toOption.getD dfltPR).1
    ((processRun dbWorld cfg0 pollW ({} : Store)).toOption.getD dfltPR).2
    ((processRun dbWorld cfg0 pollW2 ({} : Store)).toOption.getD dfltPR).2
    "m" (by rfl) (by rfl) (by decide) (by decide) (by decide)

end Crm
